import Mathlib

/-!
Verification development for the fujin deployment engine.

Each definition is a shallow embedding of a function of the repository
(`src/fujin/...`), translated directly from the Python source.  Where the
deciding code of the repository is not present in the source tree (only its
tests or callers are), the definition is modelled from the specification and
its doc comment says so explicitly.
-/

namespace Fujin

/-- Python truthiness of an optional string value: `None` and `""` are falsy,
every other string is truthy. -/
def pyTruthy : Option String → Bool
  | none => false
  | some s => !(s == "")

/-- The singleton list `[s]` when the optional string is Python-truthy,
else `[]` (embeds `if x: acc.append(x)`). -/
def truthyList : Option String → List String
  | none => []
  | some s => if s == "" then [] else [s]

/-- Left brace as a string (kept out of string literals). -/
def lbr : String := "\x7b"

/-- Right brace as a string (kept out of string literals). -/
def rbr : String := "\x7d"

/-!
## Spec-modelled deployed-unit naming

`fujin/config.py` (which defines the `DeployedUnit` objects used by
`deploy.py`, with `template_service_name`, `service_instances()` and friends)
is not present in the source tree; `tests/test_discovery.py` exercises the
same derivation through `discover_deployed_units`, which is also absent.
The naming derivation below is therefore modelled from the spec.
-/

/-- Modelled from the spec: one logical service discovered from the
unit-definition directory (`DeployedUnit` of the missing `fujin/config.py` /
`fujin/discovery.py` `discover_deployed_units`): `name`, owning app name,
whether a socket / timer definition file exists, and `replicas ≥ 1`. -/
structure SpecUnit where
  appName : String
  name : String
  hasSocket : Bool
  hasTimer : Bool
  replicas : Nat

/-- Modelled from the spec: `is_template` is derived, `replicas > 1`. -/
def SpecUnit.isTemplate (u : SpecUnit) : Bool := decide (1 < u.replicas)

/-- Modelled from the spec: app-qualified service unit name, using systemd
template syntax (`name@.service`) when templated. -/
def SpecUnit.templateServiceName (u : SpecUnit) : String :=
  u.appName ++ "-" ++ u.name ++ (if u.isTemplate then "@" else "") ++ ".service"

/-- Modelled from the spec: one concrete instance name per replica when
templated (`{app}-{name}@{i}.service`, `i = 1..replicas`), else a
single-element list equal to the template service name. -/
def SpecUnit.instanceNames (u : SpecUnit) : List String :=
  if u.isTemplate then
    (List.range u.replicas).map
      (fun i => u.appName ++ "-" ++ u.name ++ "@" ++ toString (i + 1) ++ ".service")
  else [u.templateServiceName]

/-- Modelled from the spec: socket template name when a socket file exists;
sockets are singleton artifacts (`@` marker when templated, never an index). -/
def SpecUnit.templateSocketName (u : SpecUnit) : Option String :=
  if u.hasSocket then
    some (u.appName ++ "-" ++ u.name ++ (if u.isTemplate then "@" else "") ++ ".socket")
  else none

/-- Modelled from the spec: timer template name when a timer file exists. -/
def SpecUnit.templateTimerName (u : SpecUnit) : Option String :=
  if u.hasTimer then
    some (u.appName ++ "-" ++ u.name ++ (if u.isTemplate then "@" else "") ++ ".timer")
  else none

/-- C3. For every deployed unit with `replicas ≥ 2`, `is_template` is true and
the instance-name list has exactly `replicas` entries named
`{app}-{name}@{1..replicas}.service`; for `replicas = 1` the list is the
single template service name. -/
theorem spec_unit_instances (u : SpecUnit) :
    (2 ≤ u.replicas →
      u.isTemplate = true ∧
      u.instanceNames.length = u.replicas ∧
      ∀ i, i < u.replicas →
        u.instanceNames[i]? =
          some (u.appName ++ "-" ++ u.name ++ "@" ++ toString (i + 1) ++ ".service")) ∧
    (u.replicas = 1 → u.instanceNames = [u.templateServiceName]) := by
  constructor
  · intro h2
    have ht : u.isTemplate = true := by
      simp [SpecUnit.isTemplate]; omega
    refine ⟨ht, ?_, ?_⟩
    · simp [SpecUnit.instanceNames, ht]
    · intro i hi
      simp [SpecUnit.instanceNames, ht, List.getElem?_map, List.getElem?_range, hi]
  · intro h1
    have ht : u.isTemplate = false := by
      simp [SpecUnit.isTemplate]; omega
    simp [SpecUnit.instanceNames, ht]

/-- C3 witness: the spec scenario `worker` with 3 replicas, and `web` with 1. -/
theorem spec_unit_instances_witness :
    (SpecUnit.mk "bookstore" "worker" false false 3).isTemplate = true ∧
    (SpecUnit.mk "bookstore" "worker" false false 3).instanceNames.length = 3 ∧
    (SpecUnit.mk "bookstore" "worker" false false 3).instanceNames[1]? =
      some "bookstore-worker@2.service" ∧
    (SpecUnit.mk "bookstore" "web" true false 1).instanceNames =
      [(SpecUnit.mk "bookstore" "web" true false 1).templateServiceName] := by
  have h3 := spec_unit_instances (SpecUnit.mk "bookstore" "worker" false false 3)
  have h1 := spec_unit_instances (SpecUnit.mk "bookstore" "web" true false 1)
  refine ⟨(h3.1 (by decide)).1, (h3.1 (by decide)).2.1, ?_, h1.2 rfl⟩
  have := (h3.1 (by decide)).2.2 1 (by decide)
  simpa using this

/-!
## `safe_format` (src/fujin/formatting.py)

`safe_format` is `re.sub(r"\x7b+([a-zA-Z0-9_]+)\x7d+", replace, template)`
together with the `replace` callback.  `re.sub` enumerates the leftmost
non-overlapping matches of the pattern and applies the callback to each.
`findPieces` below embeds that match enumeration for this pattern: a match
is a run of one or more `'\x7b'`, then a maximal run of one or more
identifier characters, then a maximal run of one or more `'\x7d'`
(the pattern admits no other backtracking outcome, since the three
character classes are pairwise disjoint); everything else is literal text.
-/

/-- Characters matched by the pattern's `[a-zA-Z0-9_]`. -/
def isIdentChar (c : Char) : Bool :=
  ('a' ≤ c && c ≤ 'z') || ('A' ≤ c && c ≤ 'Z') || ('0' ≤ c && c ≤ '9') || c == '_'

/-- Embeds `re.match(r"^[a-z][a-z0-9_]*$", key)` from the `replace` callback
(the "looks like one of our variable names" test). -/
def isLowerIdent : List Char → Bool
  | [] => false
  | c :: cs =>
    ('a' ≤ c && c ≤ 'z') &&
      cs.all (fun d => ('a' ≤ d && d ≤ 'z') || ('0' ≤ d && d ≤ '9') || d == '_')

/-- One piece of the template as seen by `re.sub`: a literal character, or a
regex match `tok braces ident closes` (group 0 is `braces ++ ident ++ closes`,
group 1 is `ident`). -/
inductive Piece where
  | lit (c : Char)
  | tok (braces ident closes : List Char)
  deriving Repr, DecidableEq

/-- The original text a piece stands for (`match.group(0)` for a match). -/
def pieceText : Piece → List Char
  | .lit c => [c]
  | .tok braces ident closes => braces ++ ident ++ closes

/-- Leftmost non-overlapping matches of `\x7b+([a-zA-Z0-9_]+)\x7d+` in the
character list, interleaved with the literal characters between them. -/
def findPieces : List Char → List Piece
  | [] => []
  | c :: cs =>
    if c = '{' then
      let braces := cs.takeWhile (fun x => x = '{')
      let rest1 := cs.dropWhile (fun x => x = '{')
      let ident := rest1.takeWhile isIdentChar
      let rest2 := rest1.dropWhile isIdentChar
      if ident.isEmpty then
        Piece.lit c :: (braces.map Piece.lit ++ findPieces rest1)
      else
        let closes := rest2.takeWhile (fun x => x = '}')
        let rest3 := rest2.dropWhile (fun x => x = '}')
        if closes.isEmpty then
          Piece.lit c :: (braces.map Piece.lit ++ ident.map Piece.lit ++ findPieces rest2)
        else
          Piece.tok (c :: braces) ident closes :: findPieces rest3
    else
      Piece.lit c :: findPieces cs
termination_by l => l.length
decreasing_by
  · have h1 : (cs.dropWhile (fun x => x = '{')).length ≤ cs.length :=
      (List.dropWhile_sublist _).length_le
    simp only [List.length_cons]; omega
  · have h1 : (cs.dropWhile (fun x => x = '{')).length ≤ cs.length :=
      (List.dropWhile_sublist _).length_le
    have h2 : ((cs.dropWhile (fun x => x = '{')).dropWhile isIdentChar).length ≤
        (cs.dropWhile (fun x => x = '{')).length :=
      (List.dropWhile_sublist _).length_le
    simp only [List.length_cons]; omega
  · have h1 : (cs.dropWhile (fun x => x = '{')).length ≤ cs.length :=
      (List.dropWhile_sublist _).length_le
    have h2 : ((cs.dropWhile (fun x => x = '{')).dropWhile isIdentChar).length ≤
        (cs.dropWhile (fun x => x = '{')).length :=
      (List.dropWhile_sublist _).length_le
    have h3 : (((cs.dropWhile (fun x => x = '{')).dropWhile isIdentChar).dropWhile
        (fun x => x = '}')).length ≤
        ((cs.dropWhile (fun x => x = '{')).dropWhile isIdentChar).length :=
      (List.dropWhile_sublist _).length_le
    simp only [List.length_cons]; omega
  · simp only [List.length_cons]; omega

/-- Concatenated original text of a piece list. -/
def piecesText : List Piece → List Char
  | [] => []
  | p :: ps => pieceText p ++ piecesText ps

/-- The `replace` callback of `safe_format`: a bound key is replaced by its
value (`str(kwargs[key])`), anything else is returned verbatim
(`match.group(0)`). -/
def renderPiece (kw : List (String × String)) : Piece → List Char
  | .lit c => [c]
  | .tok braces ident closes =>
    match List.lookup (String.mk ident) kw with
    | some v => v.data
    | none => braces ++ ident ++ closes

/-- The `re.sub` output: every piece rendered in order. -/
def renderAll (kw : List (String × String)) : List Piece → List Char
  | [] => []
  | p :: ps => renderPiece kw p ++ renderAll kw ps

/-- The names the `replace` callback adds to `unresolved`: unbound keys that
match `^[a-z][a-z0-9_]*$`. -/
def pieceUnresolved (kw : List (String × String)) : Piece → List String
  | .lit _ => []
  | .tok _ ident _ =>
    match List.lookup (String.mk ident) kw with
    | some _ => []
    | none => if isLowerIdent ident then [String.mk ident] else []

/-- All unresolved names collected over a piece list. -/
def unresolvedAll (kw : List (String × String)) : List Piece → List String
  | [] => []
  | p :: ps => pieceUnresolved kw p ++ unresolvedAll kw ps

/-- Embeds `safe_format(template, **kwargs)` from src/fujin/formatting.py: the
substituted string and the unresolved variable names. -/
def safe_format (template : String) (kw : List (String × String)) :
    String × List String :=
  (String.mk (renderAll kw (findPieces template.data)),
   unresolvedAll kw (findPieces template.data))

/-- Deploy bundling (src/fujin/commands/deploy.py) folds `safe_format` over
every processed file, accumulating `all_unresolved`. -/
def aggregateUnresolved (files : List String) (kw : List (String × String)) :
    List String :=
  match files with
  | [] => []
  | f :: fs => (safe_format f kw).2 ++ aggregateUnresolved fs kw

/-- The single aggregated warning of deploy.py: the sorted deduplicated
unresolved names and the sorted available context keys. -/
def unresolvedWarning (files : List String) (kw : List (String × String)) :
    List String × List String :=
  ((aggregateUnresolved files kw).dedup.mergeSort (fun a b => decide (a ≤ b)),
   (kw.map Prod.fst).dedup.mergeSort (fun a b => decide (a ≤ b)))

theorem piecesText_append (a b : List Piece) :
    piecesText (a ++ b) = piecesText a ++ piecesText b := by
  induction a with
  | nil => simp [piecesText]
  | cons p ps ih => simp [piecesText, ih]

theorem piecesText_map_lit (xs : List Char) :
    piecesText (xs.map Piece.lit) = xs := by
  induction xs with
  | nil => simp [piecesText]
  | cons c cs ih => simp [piecesText, pieceText, ih]

theorem piecesText_findPieces_aux (n : Nat) :
    ∀ l : List Char, l.length ≤ n → piecesText (findPieces l) = l := by
  induction n with
  | zero =>
    intro l hl
    have hnil : l = [] := by cases l <;> simp_all
    subst hnil
    simp [findPieces, piecesText]
  | succ n ih =>
    intro l hl
    cases l with
    | nil => simp [findPieces, piecesText]
    | cons c cs =>
      have hcs : cs.length ≤ n := by simp at hl; omega
      rw [findPieces]
      by_cases hc : c = '{'
      · subst hc
        rw [if_pos rfl]
        dsimp only
        have hr1 : (List.dropWhile (fun x => decide (x = '{')) cs).length ≤ n :=
          le_trans (List.dropWhile_sublist _).length_le hcs
        have hr2 : (List.dropWhile isIdentChar
            (List.dropWhile (fun x => decide (x = '{')) cs)).length ≤ n :=
          le_trans (List.dropWhile_sublist _).length_le hr1
        have hr3 : (List.dropWhile (fun x => decide (x = '}'))
            (List.dropWhile isIdentChar
              (List.dropWhile (fun x => decide (x = '{')) cs))).length ≤ n :=
          le_trans (List.dropWhile_sublist _).length_le hr2
        by_cases h1 : (List.takeWhile isIdentChar
            (List.dropWhile (fun x => decide (x = '{')) cs)).isEmpty = true
        · rw [if_pos h1]
          simp [piecesText, pieceText, piecesText_append, piecesText_map_lit,
            ih _ hr1, List.takeWhile_append_dropWhile]
        · rw [if_neg h1]
          by_cases h2 : (List.takeWhile (fun x => decide (x = '}'))
              (List.dropWhile isIdentChar
                (List.dropWhile (fun x => decide (x = '{')) cs))).isEmpty = true
          · rw [if_pos h2]
            simp [piecesText, pieceText, piecesText_append, piecesText_map_lit,
              ih _ hr2, List.takeWhile_append_dropWhile]
          · rw [if_neg h2]
            simp [piecesText, pieceText, ih _ hr3, List.append_assoc,
              List.takeWhile_append_dropWhile]
      · rw [if_neg hc]
        simp [piecesText, pieceText, ih _ hcs]

/-- The match decomposition loses nothing: concatenating the pieces' original
text recovers the input. -/
theorem piecesText_findPieces (l : List Char) : piecesText (findPieces l) = l :=
  piecesText_findPieces_aux l.length l le_rfl

theorem stringMk_data (s : String) : String.mk s.data = s := by
  cases s; rfl

theorem renderAll_eq_piecesText (kw : List (String × String)) (ps : List Piece)
    (h : ∀ braces ident closes, Piece.tok braces ident closes ∈ ps →
      List.lookup (String.mk ident) kw = none) :
    renderAll kw ps = piecesText ps := by
  induction ps with
  | nil => rfl
  | cons p ps ih =>
    have hps : ∀ braces ident closes, Piece.tok braces ident closes ∈ ps →
        List.lookup (String.mk ident) kw = none := by
      intro b i c hm; exact h b i c (List.mem_cons_of_mem _ hm)
    cases p with
    | lit c => simp [renderAll, piecesText, renderPiece, pieceText, ih hps]
    | tok b i c =>
      have hb := h b i c (List.mem_cons_self _ _)
      simp [renderAll, piecesText, renderPiece, pieceText, hb, ih hps]

theorem mem_unresolvedAll (kw : List (String × String)) (ps : List Piece) (k : String) :
    k ∈ unresolvedAll kw ps ↔
      ∃ braces ident closes, Piece.tok braces ident closes ∈ ps ∧
        String.mk ident = k ∧ List.lookup k kw = none ∧ isLowerIdent ident = true := by
  induction ps with
  | nil => simp [unresolvedAll]
  | cons p ps ih =>
    cases p with
    | lit c =>
      simp only [unresolvedAll, pieceUnresolved, List.nil_append, ih]
      constructor
      · rintro ⟨b, i, cl, hm, rest⟩
        exact ⟨b, i, cl, List.mem_cons_of_mem _ hm, rest⟩
      · rintro ⟨b, i, cl, hm, rest⟩
        rcases List.mem_cons.mp hm with heq | hm'
        · cases heq
        · exact ⟨b, i, cl, hm', rest⟩
    | tok b i c =>
      simp only [unresolvedAll, List.mem_append, ih]
      constructor
      · intro hmem
        rcases hmem with hhead | ⟨b', i', cl', hm, rest⟩
        · refine ⟨b, i, c, List.mem_cons_self _ _, ?_⟩
          revert hhead
          simp only [pieceUnresolved]
          cases hlk : List.lookup (String.mk i) kw with
          | some v => simp
          | none =>
            by_cases hlo : isLowerIdent i = true
            · simp only [hlo, if_true, List.mem_singleton]
              intro hk; subst hk; exact ⟨rfl, hlk, by simp [hlo]⟩
            · simp [hlo]
        · exact ⟨b', i', cl', List.mem_cons_of_mem _ hm, rest⟩
      · rintro ⟨b', i', cl', hm, hk, hlk, hlo⟩
        rcases List.mem_cons.mp hm with heq | hm'
        · left
          cases heq
          subst hk
          simp [pieceUnresolved, hlk, hlo]
        · right; exact ⟨b', i', cl', hm', hk, hlk, hlo⟩

theorem mem_aggregateUnresolved (files : List String) (kw : List (String × String))
    (k : String) :
    k ∈ aggregateUnresolved files kw ↔ ∃ f ∈ files, k ∈ (safe_format f kw).2 := by
  induction files with
  | nil => simp [aggregateUnresolved]
  | cons f fs ih => simp [aggregateUnresolved, ih]

/-- C9. The substitution pass is total and tolerant: when no placeholder key
of the template is bound, the whole template is returned verbatim; an unbound
placeholder is rendered as its original text (`match.group(0)`) while a bound
one is replaced by its value; a name is reported unresolved exactly when it
occurs as an unbound, lowercase-identifier placeholder; and the names of the
single aggregated warning are exactly the unresolved names of all processed
files together with all available context keys. -/
theorem safe_format_tolerant (t : String) (kw : List (String × String))
    (files : List String) (k : String) :
    ((∀ braces ident closes, Piece.tok braces ident closes ∈ findPieces t.data →
        List.lookup (String.mk ident) kw = none) → (safe_format t kw).1 = t) ∧
    (∀ braces ident closes, Piece.tok braces ident closes ∈ findPieces t.data →
        (List.lookup (String.mk ident) kw = none →
          renderPiece kw (Piece.tok braces ident closes) = braces ++ ident ++ closes) ∧
        (∀ v, List.lookup (String.mk ident) kw = some v →
          renderPiece kw (Piece.tok braces ident closes) = v.data)) ∧
    (k ∈ (safe_format t kw).2 ↔
      ∃ braces ident closes, Piece.tok braces ident closes ∈ findPieces t.data ∧
        String.mk ident = k ∧ List.lookup k kw = none ∧ isLowerIdent ident = true) ∧
    (k ∈ (unresolvedWarning files kw).1 ↔ ∃ f ∈ files, k ∈ (safe_format f kw).2) ∧
    (k ∈ (unresolvedWarning files kw).2 ↔ ∃ v, (k, v) ∈ kw) := by
  refine ⟨?_, ?_, ?_, ?_, ?_⟩
  · intro h
    show String.mk (renderAll kw (findPieces t.data)) = t
    rw [renderAll_eq_piecesText kw _ h, piecesText_findPieces, stringMk_data]
  · intro b i c _
    constructor
    · intro hlk; simp [renderPiece, hlk]
    · intro v hlk; simp [renderPiece, hlk]
  · exact mem_unresolvedAll kw (findPieces t.data) k
  · simp only [unresolvedWarning, List.mem_mergeSort, List.mem_dedup]
    exact mem_aggregateUnresolved files kw k
  · simp only [unresolvedWarning, List.mem_mergeSort, List.mem_dedup, List.mem_map]
    constructor
    · rintro ⟨⟨k', v⟩, hm, hk⟩
      cases hk
      exact ⟨v, hm⟩
    · rintro ⟨v, hm⟩
      exact ⟨(k, v), hm, rfl⟩

/-- C9 witness: a template that is one unbound lowercase placeholder is
returned verbatim, reported unresolved, and aggregated into the warning. -/
theorem safe_format_tolerant_witness :
    (safe_format (String.mk ['{', 'p', '}']) [("q", "V")]).1 =
      String.mk ['{', 'p', '}'] ∧
    "p" ∈ (safe_format (String.mk ['{', 'p', '}']) [("q", "V")]).2 ∧
    "p" ∈ (unresolvedWarning [String.mk ['{', 'p', '}']] [("q", "V")]).1 ∧
    "q" ∈ (unresolvedWarning [String.mk ['{', 'p', '}']] [("q", "V")]).2 := by
  have h := safe_format_tolerant (String.mk ['{', 'p', '}']) [("q", "V")]
    [String.mk ['{', 'p', '}']] "p"
  have hq := safe_format_tolerant (String.mk ['{', 'p', '}']) [("q", "V")]
    [String.mk ['{', 'p', '}']] "q"
  have hfp : findPieces (String.mk ['{', 'p', '}']).data =
      [Piece.tok ['{'] ['p'] ['}']] := by
    simp [findPieces, isIdentChar]
  have hp2 : "p" ∈ (safe_format (String.mk ['{', 'p', '}']) [("q", "V")]).2 := by
    refine (h.2.2.1).mpr ⟨['{'], ['p'], ['}'], ?_, by decide, by decide, by decide⟩
    rw [hfp]
    exact List.mem_singleton.mpr rfl
  refine ⟨h.1 ?_, hp2, ?_, ?_⟩
  · intro b i c hm
    rw [hfp] at hm
    rcases List.mem_singleton.mp hm with heq
    cases heq
    decide
  · exact (h.2.2.2.1).mpr ⟨String.mk ['{', 'p', '}'], List.mem_singleton.mpr rfl, hp2⟩
  · exact (hq.2.2.2.2).mpr ⟨"V", List.mem_singleton.mpr rfl⟩

theorem takeWhile_run_append (p : Char → Bool) (xs r : List Char)
    (hxs : ∀ c ∈ xs, p c = true) (hr : ∀ c, r.head? = some c → p c = false) :
    (xs ++ r).takeWhile p = xs ∧ (xs ++ r).dropWhile p = r := by
  induction xs with
  | nil =>
    simp only [List.nil_append]
    cases r with
    | nil => simp
    | cons a r' =>
      have ha := hr a rfl
      simp [List.takeWhile_cons, List.dropWhile_cons, ha]
  | cons x xs ih =>
    have hx := hxs x (List.mem_cons_self _ _)
    have ihx := ih (fun c hc => hxs c (List.mem_cons_of_mem _ hc))
    simp [List.takeWhile_cons, List.dropWhile_cons, hx, ihx.1, ihx.2]

/-- A brace run, identifier run and closing-brace run form one single regex
match (group 1 is the identifier, group 0 swallows every surrounding brace). -/
theorem findPieces_token (n m : Nat) (kd : List Char)
    (hn : 1 ≤ n) (hm : 1 ≤ m) (hkd : kd ≠ [])
    (hident : ∀ c ∈ kd, isIdentChar c = true) :
    findPieces (List.replicate n '{' ++ (kd ++ List.replicate m '}')) =
      [Piece.tok (List.replicate n '{') kd (List.replicate m '}')] := by
  obtain ⟨n', rfl⟩ : ∃ n', n = n' + 1 := ⟨n - 1, by omega⟩
  have hkd0 : ∀ c, kd.head? = some c → (decide (c = '{') : Bool) = false := by
    intro c hc
    have hmem : c ∈ kd := by
      cases kd with
      | nil => cases hc
      | cons a l => cases hc; exact List.mem_cons_self _ _
    have := hident c hmem
    simp only [decide_eq_false_iff_not]
    intro hceq
    subst hceq
    exact absurd this (by decide)
  have hbrace : ∀ c ∈ List.replicate n' '{', (decide (c = '{') : Bool) = true := by
    intro c hc
    rw [List.eq_of_mem_replicate hc]
    decide
  have hspan1 := takeWhile_run_append (fun x => decide (x = '{'))
    (List.replicate n' '{') (kd ++ List.replicate m '}') hbrace
    (by
      intro c hc
      apply hkd0
      cases kd with
      | nil => exact absurd rfl hkd
      | cons a l => simpa using hc)
  have hclose0 : ∀ c, (List.replicate m '}').head? = some c →
      isIdentChar c = false := by
    intro c hc
    obtain ⟨m', rfl⟩ : ∃ m', m = m' + 1 := ⟨m - 1, by omega⟩
    simp only [List.replicate_succ, List.head?_cons, Option.some.injEq] at hc
    subst hc
    decide
  have hspan2 := takeWhile_run_append isIdentChar kd (List.replicate m '}')
    hident hclose0
  have hspan3 := takeWhile_run_append (fun x => decide (x = '}'))
    (List.replicate m '}') []
    (by
      intro c hc
      rw [List.eq_of_mem_replicate hc]
      decide)
    (by intro c hc; cases hc)
  rw [List.replicate_succ, List.cons_append, findPieces, if_pos rfl]
  dsimp only
  rw [hspan1.1, hspan1.2, hspan2.1, hspan2.2]
  have hne : kd.isEmpty = false := by
    cases kd with
    | nil => exact absurd rfl hkd
    | cons a l => rfl
  rw [hne]
  simp only [Bool.false_eq_true, if_false]
  rw [List.append_nil] at hspan3
  rw [hspan3.1, hspan3.2]
  have hcne : (List.replicate m '}').isEmpty = false := by
    obtain ⟨m', rfl⟩ : ∃ m', m = m' + 1 := ⟨m - 1, by omega⟩
    simp [List.replicate_succ]
  rw [hcne]
  simp [findPieces, List.replicate_succ]

/-- A standalone placeholder template: `n` opening braces, the key, `m`
closing braces. -/
def tokenTemplate (n : Nat) (k : String) (m : Nat) : String :=
  String.mk (List.replicate n '{' ++ (k.data ++ List.replicate m '}'))

/-- C10. A maximal brace/identifier/brace run is one placeholder: a bound key
swallows every surrounding brace (doubled braces are not an escape), while an
unbound identifier is left verbatim and is reported unresolved exactly when
it matches `[a-z][a-z0-9_]*`. -/
theorem safe_format_brace_runs (kw : List (String × String)) (k v : String)
    (n m : Nat) (hn : 1 ≤ n) (hm : 1 ≤ m) (hk : k.data ≠ [])
    (hid : ∀ c ∈ k.data, isIdentChar c = true) :
    (List.lookup k kw = some v →
      safe_format (tokenTemplate n k m) kw = (v, [])) ∧
    (List.lookup k kw = none → isLowerIdent k.data = false →
      safe_format (tokenTemplate n k m) kw = (tokenTemplate n k m, [])) ∧
    (List.lookup k kw = none → isLowerIdent k.data = true →
      safe_format (tokenTemplate n k m) kw = (tokenTemplate n k m, [k])) := by
  have hfp : findPieces (List.replicate n '{' ++ (k.data ++ List.replicate m '}')) =
      [Piece.tok (List.replicate n '{') k.data (List.replicate m '}')] :=
    findPieces_token n m k.data hn hm hk hid
  have hmk : String.mk k.data = k := stringMk_data k
  refine ⟨?_, ?_, ?_⟩
  · intro hlk
    simp [safe_format, tokenTemplate, hfp, renderAll, renderPiece, unresolvedAll,
      pieceUnresolved, hmk, hlk, stringMk_data]
  · intro hlk hlo
    simp [safe_format, hfp, renderAll, renderPiece, unresolvedAll, pieceUnresolved,
      hmk, hlk, hlo, tokenTemplate]
  · intro hlk hlo
    simp [safe_format, hfp, renderAll, renderPiece, unresolvedAll, pieceUnresolved,
      hmk, hlk, hlo, tokenTemplate]

/-- C10 witness: `(lbr ++ lbr)key(rbr ++ rbr)` with `key` bound is fully
replaced including both brace pairs; `KEY` (uppercase) and `9key`
(digit-initial) are left verbatim and never reported. -/
theorem safe_format_brace_runs_witness :
    safe_format (tokenTemplate 2 "key" 2) [("key", "VAL")] = ("VAL", []) ∧
    safe_format (tokenTemplate 1 "KEY" 1) [("key", "VAL")] =
      (tokenTemplate 1 "KEY" 1, []) ∧
    safe_format (tokenTemplate 1 "9key" 1) [("key", "VAL")] =
      (tokenTemplate 1 "9key" 1, []) ∧
    safe_format (tokenTemplate 1 "other" 1) [("key", "VAL")] =
      (tokenTemplate 1 "other" 1, ["other"]) := by
  have h1 := safe_format_brace_runs [("key", "VAL")] "key" "VAL" 2 2
    (by decide) (by decide) (by decide) (by decide)
  have h2 := safe_format_brace_runs [("key", "VAL")] "KEY" "VAL" 1 1
    (by decide) (by decide) (by decide) (by decide)
  have h3 := safe_format_brace_runs [("key", "VAL")] "9key" "VAL" 1 1
    (by decide) (by decide) (by decide) (by decide)
  have h4 := safe_format_brace_runs [("key", "VAL")] "other" "VAL" 1 1
    (by decide) (by decide) (by decide) (by decide)
  exact ⟨h1.1 (by decide), h2.2.1 (by decide) (by decide),
    h3.2.1 (by decide) (by decide), h4.2.2 (by decide) (by decide)⟩

/-!
## Remote installer (src/fujin/_installer.py)

Phase 3 ("Configuring systemd services") and the enable/restart/health-verify
block, embedded as a pure transition on an abstract host state.  Directories
(`/etc/systemd/system` and its `multi-user.target.wants`) are modelled as
lists of file names; every systemd interaction is recorded as an action.
-/

/-- Embeds `str.startswith` on whole strings (character-list prefix test). -/
def pyStartsWith (s pre : String) : Bool := pre.data.isPrefixOf s.data

/-- Embeds `str.endswith` on whole strings (character-list suffix test). -/
def pyEndsWith (s suf : String) : Bool := suf.data.isSuffixOf s.data

/-- Mirror of the installer's `DeployedUnit` TypedDict (all fields as
serialized into the bundle's `config.json` by deploy.py). -/
structure DeployedUnit where
  name : String
  service_file : String
  socket_file : Option String
  timer_file : Option String
  replicas : Nat
  is_template : Bool
  service_instances : List String
  template_service_name : String
  template_socket_name : Option String
  template_timer_name : Option String
  deriving Repr, DecidableEq

/-- Unit files present on the host: the main systemd directory and the
`multi-user.target.wants` directory (files only; the glob's `is_file()`
excludes drop-in directories from this model). -/
structure SystemdState where
  systemFiles : List String
  wantsFiles : List String
  deriving Repr, DecidableEq

/-- One recorded systemd interaction of the installer. -/
inductive UnitAction where
  | disable (unit : String) (now : Bool)
  | resetFailed (unit : String)
  | removeSystemFile (name : String)
  | removeWantsFile (name : String)
  | writeFile (name : String)
  | daemonReload
  | enable (units : List String)
  | restartCmd (verb : String) (units : List String)
  | sleepGrace
  | pollActive (unit : String)
  | verifyUnit (unit : String)
  | journalTail (unit : String) (lines : Nat)
  deriving Repr, DecidableEq

/-- The `valid_units` list: template service name plus socket / timer
template names when truthy (lines 235–241 of `_installer.py`). -/
def validUnits (us : List DeployedUnit) : List String :=
  us.flatMap fun u =>
    [u.template_service_name] ++
      truthyList u.template_socket_name ++ truthyList u.template_timer_name

/-- Embeds `Path(dir) / target` then `write_text`: `None` raises `TypeError`, the
empty name resolves to the directory itself and raises. -/
def writeTarget : Option String → Except String String
  | none => .error "TypeError"
  | some s => if s = "" then .error "IsADirectoryError" else .ok s

/-- Writing a file into a directory listing (idempotent on the name set). -/
def addFile (l : List String) (n : String) : List String :=
  if n ∈ l then l else l ++ [n]

/-- One guarded unit-file write (`if unit[...]: ... write_text(...)`). -/
def writeAux (cond : Bool) (target : Option String) (st : SystemdState) :
    Except String (SystemdState × List UnitAction) :=
  if cond then
    match writeTarget target with
    | .error e => .error e
    | .ok n => .ok (⟨addFile st.systemFiles n, st.wantsFiles⟩, [.writeFile n])
  else .ok (st, [])

/-- Install the unit-family files of one deployed unit (service always,
socket / timer when the bundle file field is truthy; lines 274–293). -/
def writeUnit (u : DeployedUnit) (st : SystemdState) :
    Except String (SystemdState × List UnitAction) :=
  match writeAux true (some u.template_service_name) st with
  | .error e => .error e
  | .ok (st1, a1) =>
    match writeAux (pyTruthy u.socket_file) u.template_socket_name st1 with
    | .error e => .error e
    | .ok (st2, a2) =>
      match writeAux (pyTruthy u.timer_file) u.template_timer_name st2 with
      | .error e => .error e
      | .ok (st3, a3) => .ok (st3, a1 ++ a2 ++ a3)

/-- Install the unit files of every deployed unit, in manifest order. -/
def writeUnits : List DeployedUnit → SystemdState →
    Except String (SystemdState × List UnitAction)
  | [], st => .ok (st, [])
  | u :: rest, st =>
    match writeUnit u st with
    | .error e => .error e
    | .ok (st1, a1) =>
      match writeUnits rest st1 with
      | .error e => .error e
      | .ok (st2, a2) => .ok (st2, a1 ++ a2)

/-- UnitSync: stale-unit disable/reset, stale-file removal from both
directories, then installation of the manifest's unit files
(lines 232–293 of `_installer.py`). -/
def unitSync (app : String) (us : List DeployedUnit) (st : SystemdState) :
    Except String (SystemdState × List UnitAction) :=
  let valid := validUnits us
  let installed := st.systemFiles.filter (fun f => pyStartsWith f app)
  let stale := installed.filter (fun u => decide (u ∉ valid))
  let staleActs := stale.flatMap fun u =>
    [UnitAction.disable u (!(pyEndsWith u "@.service")), UnitAction.resetFailed u]
  let sysStale := st.systemFiles.filter
    (fun f => pyStartsWith f app && decide (f ∉ valid))
  let wantsStale := st.wantsFiles.filter
    (fun f => pyStartsWith f app && decide (f ∉ valid))
  let removeActs := sysStale.map UnitAction.removeSystemFile ++
    wantsStale.map UnitAction.removeWantsFile
  let st1 : SystemdState :=
    ⟨st.systemFiles.filter (fun f => !(pyStartsWith f app && decide (f ∉ valid))),
     st.wantsFiles.filter (fun f => !(pyStartsWith f app && decide (f ∉ valid)))⟩
  match writeUnits us st1 with
  | .error e => .error e
  | .ok (st2, writeActs) => .ok (st2, staleActs ++ removeActs ++ writeActs)

/-- The file or unit a systemd action touches, when it touches one. -/
def actionTarget : UnitAction → Option String
  | .disable u _ => some u
  | .resetFailed u => some u
  | .removeSystemFile n => some n
  | .removeWantsFile n => some n
  | .writeFile n => some n
  | .pollActive u => some u
  | .verifyUnit u => some u
  | .journalTail u _ => some u
  | _ => none

/-- Well-formedness of a manifest entry, as guaranteed by the bundle builder:
a non-empty service name, and the bundled socket / timer file is present
exactly when the corresponding template name is. -/
@[reducible] def WfUnit (u : DeployedUnit) : Prop :=
  u.template_service_name ≠ "" ∧
  pyTruthy u.socket_file = pyTruthy u.template_socket_name ∧
  pyTruthy u.timer_file = pyTruthy u.template_timer_name

instance {e a : Type} [DecidableEq e] [DecidableEq a] : DecidableEq (Except e a) :=
  fun x y =>
    match x, y with
    | .ok u, .ok v =>
      if h : u = v then .isTrue (by rw [h]) else .isFalse (by intro hh; cases hh; exact h rfl)
    | .error u, .error v =>
      if h : u = v then .isTrue (by rw [h]) else .isFalse (by intro hh; cases hh; exact h rfl)
    | .ok _, .error _ => .isFalse (by intro hh; cases hh)
    | .error _, .ok _ => .isFalse (by intro hh; cases hh)

theorem mem_addFile (l : List String) (n x : String) :
    x ∈ addFile l n ↔ x ∈ l ∨ x = n := by
  by_cases hn : n ∈ l
  · simp only [addFile, if_pos hn]
    constructor
    · exact fun h => Or.inl h
    · rintro (h | rfl)
      · exact h
      · exact hn
  · simp [addFile, if_neg hn]

theorem truthyList_of_pyTruthy (o : Option String) (h : pyTruthy o = true) :
    ∃ s, o = some s ∧ s ≠ "" ∧ truthyList o = [s] := by
  cases o with
  | none => cases h
  | some s =>
    refine ⟨s, rfl, ?_, ?_⟩
    · simp [pyTruthy] at h
      exact h
    · simp [pyTruthy] at h
      simp [truthyList, h]

theorem truthyList_of_not_pyTruthy (o : Option String) (h : pyTruthy o = false) :
    truthyList o = [] := by
  cases o with
  | none => rfl
  | some s =>
    simp [pyTruthy] at h
    simp [truthyList, h]

theorem writeUnit_ok (u : DeployedUnit) (st : SystemdState) (hu : WfUnit u) :
    ∃ st' acts, writeUnit u st = .ok (st', acts) ∧
      st'.wantsFiles = st.wantsFiles ∧
      (∀ x, x ∈ st'.systemFiles ↔ x ∈ st.systemFiles ∨
        x ∈ [u.template_service_name] ++ truthyList u.template_socket_name ++
          truthyList u.template_timer_name) ∧
      (∀ a ∈ acts, ∃ s, a = UnitAction.writeFile s ∧
        s ∈ [u.template_service_name] ++ truthyList u.template_socket_name ++
          truthyList u.template_timer_name) := by
  obtain ⟨hsn, hsock, htim⟩ := hu
  cases hsockT : pyTruthy u.template_socket_name with
  | true =>
    obtain ⟨s, hso, hsne, hstl⟩ := truthyList_of_pyTruthy _ hsockT
    have hsc : pyTruthy u.socket_file = true := by rw [hsock, hsockT]
    cases htimT : pyTruthy u.template_timer_name with
    | true =>
      obtain ⟨t, hto, htne, httl⟩ := truthyList_of_pyTruthy _ htimT
      have htc : pyTruthy u.timer_file = true := by rw [htim, htimT]
      have hrun : writeUnit u st = .ok
          (⟨addFile (addFile (addFile st.systemFiles u.template_service_name) s) t,
            st.wantsFiles⟩,
           [UnitAction.writeFile u.template_service_name, UnitAction.writeFile s,
            UnitAction.writeFile t]) := by
        simp [writeUnit, writeAux, hsc, htc, hso, hto, writeTarget, hsn, hsne, htne]
      refine ⟨_, _, hrun, rfl, ?_, ?_⟩
      · intro x
        simp [mem_addFile, hstl, httl]
        tauto
      · intro a ha
        simp only [List.mem_cons, List.not_mem_nil, or_false] at ha
        rcases ha with rfl | rfl | rfl
        · exact ⟨_, rfl, by simp⟩
        · exact ⟨_, rfl, by simp [hstl]⟩
        · exact ⟨_, rfl, by simp [httl]⟩
    | false =>
      have httl := truthyList_of_not_pyTruthy _ htimT
      have htc : pyTruthy u.timer_file = false := by rw [htim, htimT]
      have hrun : writeUnit u st = .ok
          (⟨addFile (addFile st.systemFiles u.template_service_name) s,
            st.wantsFiles⟩,
           [UnitAction.writeFile u.template_service_name, UnitAction.writeFile s]) := by
        simp [writeUnit, writeAux, hsc, htc, hso, writeTarget, hsn, hsne]
      refine ⟨_, _, hrun, rfl, ?_, ?_⟩
      · intro x
        simp [mem_addFile, hstl, httl]
        tauto
      · intro a ha
        simp only [List.mem_cons, List.not_mem_nil, or_false] at ha
        rcases ha with rfl | rfl
        · exact ⟨_, rfl, by simp⟩
        · exact ⟨_, rfl, by simp [hstl]⟩
  | false =>
    have hstl := truthyList_of_not_pyTruthy _ hsockT
    have hsc : pyTruthy u.socket_file = false := by rw [hsock, hsockT]
    cases htimT : pyTruthy u.template_timer_name with
    | true =>
      obtain ⟨t, hto, htne, httl⟩ := truthyList_of_pyTruthy _ htimT
      have htc : pyTruthy u.timer_file = true := by rw [htim, htimT]
      have hrun : writeUnit u st = .ok
          (⟨addFile (addFile st.systemFiles u.template_service_name) t,
            st.wantsFiles⟩,
           [UnitAction.writeFile u.template_service_name, UnitAction.writeFile t]) := by
        simp [writeUnit, writeAux, hsc, htc, hto, writeTarget, hsn, htne]
      refine ⟨_, _, hrun, rfl, ?_, ?_⟩
      · intro x
        simp [mem_addFile, hstl, httl]
        tauto
      · intro a ha
        simp only [List.mem_cons, List.not_mem_nil, or_false] at ha
        rcases ha with rfl | rfl
        · exact ⟨_, rfl, by simp⟩
        · exact ⟨_, rfl, by simp [httl]⟩
    | false =>
      have httl := truthyList_of_not_pyTruthy _ htimT
      have htc : pyTruthy u.timer_file = false := by rw [htim, htimT]
      have hrun : writeUnit u st = .ok
          (⟨addFile st.systemFiles u.template_service_name, st.wantsFiles⟩,
           [UnitAction.writeFile u.template_service_name]) := by
        simp [writeUnit, writeAux, hsc, htc, writeTarget, hsn]
      refine ⟨_, _, hrun, rfl, ?_, ?_⟩
      · intro x
        simp [mem_addFile, hstl, httl]
        try tauto
      · intro a ha
        simp only [List.mem_cons, List.not_mem_nil, or_false] at ha
        subst ha
        exact ⟨_, rfl, by simp⟩

theorem validUnits_cons (u : DeployedUnit) (rest : List DeployedUnit) :
    validUnits (u :: rest) =
      ([u.template_service_name] ++ truthyList u.template_socket_name ++
        truthyList u.template_timer_name) ++ validUnits rest := by
  simp [validUnits]

theorem writeUnits_ok (us : List DeployedUnit) (st : SystemdState)
    (hwf : ∀ u ∈ us, WfUnit u) :
    ∃ st' acts, writeUnits us st = .ok (st', acts) ∧
      st'.wantsFiles = st.wantsFiles ∧
      (∀ x, x ∈ st'.systemFiles ↔ x ∈ st.systemFiles ∨ x ∈ validUnits us) ∧
      (∀ a ∈ acts, ∃ s, a = UnitAction.writeFile s ∧ s ∈ validUnits us) := by
  induction us generalizing st with
  | nil => exact ⟨st, [], rfl, rfl, by simp [validUnits], by simp⟩
  | cons u rest ih =>
    obtain ⟨st1, a1, h1, hw1, hm1, ha1⟩ := writeUnit_ok u st (hwf u (by simp))
    obtain ⟨st2, a2, h2, hw2, hm2, ha2⟩ := ih st1 (fun v hv => hwf v (by simp [hv]))
    refine ⟨st2, a1 ++ a2, ?_, by rw [hw2, hw1], ?_, ?_⟩
    · simp [writeUnits, h1, h2]
    · intro x
      rw [hm2 x, hm1 x, validUnits_cons]
      simp
      tauto
    · intro a ha
      rcases List.mem_append.mp ha with h | h
      · obtain ⟨s, rfl, hs⟩ := ha1 a h
        refine ⟨s, rfl, ?_⟩
        rw [validUnits_cons]
        exact List.mem_append.mpr (Or.inl hs)
      · obtain ⟨s, rfl, hs⟩ := ha2 a h
        refine ⟨s, rfl, ?_⟩
        rw [validUnits_cons]
        exact List.mem_append.mpr (Or.inr hs)

/-- C1 (amended).  After UnitSync the app-prefixed unit files in the main
systemd directory are exactly the manifest's valid unit set; app-prefixed
stale entries of the wanted-by directory are removed and its other entries
are untouched; every stale unit is disabled — template *service* units
(names ending in `@.service`) without `--now`, every other stale unit
(including template sockets and timers) with `--now` — and every stale unit,
template or not, has its failure record reset; no action of the phase
touches a name that does not start with the app name. -/
theorem unitSync_stale_invariant (app : String) (us : List DeployedUnit)
    (st : SystemdState)
    (hwf : ∀ u ∈ us, WfUnit u)
    (hvalid : ∀ v ∈ validUnits us, pyStartsWith v app = true) :
    ∃ st' acts, unitSync app us st = .ok (st', acts) ∧
      (∀ x, pyStartsWith x app = true →
        (x ∈ st'.systemFiles ↔ x ∈ validUnits us)) ∧
      (∀ x, pyStartsWith x app = true →
        (x ∈ st'.wantsFiles ↔ x ∈ st.wantsFiles ∧ x ∈ validUnits us)) ∧
      (∀ x, pyStartsWith x app = false →
        ((x ∈ st'.systemFiles ↔ x ∈ st.systemFiles) ∧
         (x ∈ st'.wantsFiles ↔ x ∈ st.wantsFiles))) ∧
      (∀ u, u ∈ st.systemFiles → pyStartsWith u app = true →
        u ∉ validUnits us →
        UnitAction.disable u (!(pyEndsWith u "@.service")) ∈ acts ∧
        UnitAction.resetFailed u ∈ acts ∧
        u ∉ st'.systemFiles ∧ u ∉ st'.wantsFiles) ∧
      (∀ a ∈ acts, ∀ x, actionTarget a = some x → pyStartsWith x app = true) := by
  obtain ⟨st2, wacts, hw, hwants, hmem, hacts⟩ := writeUnits_ok us
    ⟨st.systemFiles.filter
      (fun f => !(pyStartsWith f app && decide (f ∉ validUnits us))),
     st.wantsFiles.filter
      (fun f => !(pyStartsWith f app && decide (f ∉ validUnits us)))⟩ hwf
  refine ⟨st2,
    ((st.systemFiles.filter (fun f => pyStartsWith f app)).filter
        (fun u => decide (u ∉ validUnits us))).flatMap
      (fun u => [UnitAction.disable u (!(pyEndsWith u "@.service")),
                 UnitAction.resetFailed u]) ++
    ((st.systemFiles.filter
        (fun f => pyStartsWith f app && decide (f ∉ validUnits us))).map
        UnitAction.removeSystemFile ++
     (st.wantsFiles.filter
        (fun f => pyStartsWith f app && decide (f ∉ validUnits us))).map
        UnitAction.removeWantsFile) ++ wacts, ?_, ?_, ?_, ?_, ?_, ?_⟩
  · show unitSync app us st = _
    simp only [unitSync]
    rw [hw]
  · intro x hx
    rw [hmem x]
    simp only [List.mem_filter, hx, Bool.true_and, Bool.not_eq_true']
    constructor
    · rintro (⟨_, hin⟩ | hin)
      · simpa using hin
      · exact hin
    · intro hin
      exact Or.inr hin
  · intro x hx
    rw [hwants]
    simp only [List.mem_filter, hx, Bool.true_and, Bool.not_eq_true']
    constructor
    · rintro ⟨hmem', hdec⟩
      exact ⟨hmem', by simpa using hdec⟩
    · rintro ⟨hmem', hval⟩
      exact ⟨hmem', by simpa using hval⟩
  · intro x hx
    have hnv : x ∉ validUnits us := fun hv => by
      have := hvalid x hv
      rw [hx] at this
      cases this
    constructor
    · rw [hmem x]
      simp only [List.mem_filter, hx, Bool.false_and, Bool.not_false]
      constructor
      · rintro (⟨hin, _⟩ | hin)
        · exact hin
        · exact absurd hin hnv
      · intro hin
        exact Or.inl ⟨hin, trivial⟩
    · rw [hwants]
      simp [List.mem_filter, hx]
  · intro u hu hus hunv
    have hstale : u ∈ (st.systemFiles.filter
        (fun f => pyStartsWith f app)).filter (fun v => decide (v ∉ validUnits us)) := by
      simp [List.mem_filter, hu, hus, hunv]
    refine ⟨?_, ?_, ?_, ?_⟩
    · apply List.mem_append.mpr
      apply Or.inl
      apply List.mem_append.mpr
      apply Or.inl
      apply List.mem_flatMap.mpr
      exact ⟨u, hstale, by simp⟩
    · apply List.mem_append.mpr
      apply Or.inl
      apply List.mem_append.mpr
      apply Or.inl
      apply List.mem_flatMap.mpr
      exact ⟨u, hstale, by simp⟩
    · rw [hmem u]
      simp only [List.mem_filter]
      rintro (⟨_, hdec⟩ | hv)
      · simp [hus, hunv] at hdec
      · exact hunv hv
    · rw [hwants]
      simp only [List.mem_filter]
      rintro ⟨_, hdec⟩
      simp [hus, hunv] at hdec
  · intro a ha x hax
    rcases List.mem_append.mp ha with ha' | hwrite
    · rcases List.mem_append.mp ha' with hstale | hremove
      · obtain ⟨u, hu, hau⟩ := List.mem_flatMap.mp hstale
        have hustart : pyStartsWith u app = true := by
          have := List.mem_filter.mp (List.mem_filter.mp hu).1
          exact this.2
        rcases List.mem_cons.mp hau with rfl | hau'
        · simp only [actionTarget, Option.some.injEq] at hax
          subst hax
          exact hustart
        · rcases List.mem_singleton.mp hau' with rfl
          simp only [actionTarget, Option.some.injEq] at hax
          subst hax
          exact hustart
      · rcases List.mem_append.mp hremove with hsys | hwnt
        · obtain ⟨n, hn, rfl⟩ := List.mem_map.mp hsys
          simp only [actionTarget, Option.some.injEq] at hax
          subst hax
          have h2 := (List.mem_filter.mp hn).2
          rw [Bool.and_eq_true] at h2
          exact h2.1
        · obtain ⟨n, hn, rfl⟩ := List.mem_map.mp hwnt
          simp only [actionTarget, Option.some.injEq] at hax
          subst hax
          have h2 := (List.mem_filter.mp hn).2
          rw [Bool.and_eq_true] at h2
          exact h2.1
    · obtain ⟨s, rfl, hs⟩ := hacts a hwrite
      simp only [actionTarget, Option.some.injEq] at hax
      subst hax
      exact hvalid _ hs

/-- C1 witness: the spec scenario — app `bookstore`, one `web` unit with a
socket, a stale `bookstore-api.service` plus an unrelated `other.service` on
the host. -/
theorem unitSync_stale_invariant_witness :
    ∃ st' acts,
      unitSync "bookstore"
        [⟨"web", "web.service", some "web.socket", none, 1, false,
          ["bookstore-web.service"], "bookstore-web.service",
          some "bookstore-web.socket", none⟩]
        ⟨["bookstore-api.service", "other.service"], ["bookstore-api.service"]⟩ =
        .ok (st', acts) ∧
      (∀ x, pyStartsWith x "bookstore" = true →
        (x ∈ st'.systemFiles ↔ x ∈ validUnits
          [⟨"web", "web.service", some "web.socket", none, 1, false,
            ["bookstore-web.service"], "bookstore-web.service",
            some "bookstore-web.socket", none⟩])) ∧
      (∀ x, pyStartsWith x "bookstore" = true →
        (x ∈ st'.wantsFiles ↔
          x ∈ ["bookstore-api.service"] ∧ x ∈ validUnits
            [⟨"web", "web.service", some "web.socket", none, 1, false,
              ["bookstore-web.service"], "bookstore-web.service",
              some "bookstore-web.socket", none⟩])) ∧
      (∀ x, pyStartsWith x "bookstore" = false →
        ((x ∈ st'.systemFiles ↔ x ∈ ["bookstore-api.service", "other.service"]) ∧
         (x ∈ st'.wantsFiles ↔ x ∈ ["bookstore-api.service"]))) ∧
      (∀ u, u ∈ ["bookstore-api.service", "other.service"] →
        pyStartsWith u "bookstore" = true →
        u ∉ validUnits
          [⟨"web", "web.service", some "web.socket", none, 1, false,
            ["bookstore-web.service"], "bookstore-web.service",
            some "bookstore-web.socket", none⟩] →
        UnitAction.disable u (!(pyEndsWith u "@.service")) ∈ acts ∧
        UnitAction.resetFailed u ∈ acts ∧
        u ∉ st'.systemFiles ∧ u ∉ st'.wantsFiles) ∧
      (∀ a ∈ acts, ∀ x, actionTarget a = some x →
        pyStartsWith x "bookstore" = true) :=
  unitSync_stale_invariant "bookstore"
    [⟨"web", "web.service", some "web.socket", none, 1, false,
      ["bookstore-web.service"], "bookstore-web.service",
      some "bookstore-web.socket", none⟩]
    ⟨["bookstore-api.service", "other.service"], ["bookstore-api.service"]⟩
    (by decide) (by decide)

/-- C1 counterexample: a stale *template* unit `bookstore-old@.service` is not
"disabled only" — the phase also runs `systemctl reset-failed` on it, as the
recorded trace shows. -/
theorem unitSync_template_reset_counterexample :
    unitSync "bookstore"
      [⟨"web", "web.service", none, none, 1, false, ["bookstore-web.service"],
        "bookstore-web.service", none, none⟩]
      ⟨["bookstore-old@.service"], []⟩ =
    .ok (⟨["bookstore-web.service"], []⟩,
      [UnitAction.disable "bookstore-old@.service" false,
       UnitAction.resetFailed "bookstore-old@.service",
       UnitAction.removeSystemFile "bookstore-old@.service",
       UnitAction.writeFile "bookstore-web.service"]) ∧
    pyEndsWith "bookstore-old@.service" "@.service" = true ∧
    "bookstore-old@.service" ∉ validUnits
      [⟨"web", "web.service", none, none, 1, false, ["bookstore-web.service"],
        "bookstore-web.service", none, none⟩] := by
  refine ⟨by decide, by decide, by decide⟩

/-!
## Enable, restart and health verification (lines 341–409), exit codes
-/

/-- Outcome of the remote `install` routine: normal return, the dedicated
`sys.exit(EXIT_SERVICE_START_FAILED)`, or a raised exception. -/
inductive InstallOutcome where
  | ok
  | serviceStartFailed
  | raised (msg : String)
  deriving Repr, DecidableEq

/-- Host-side behaviour of the installer's external commands: exit codes of
`systemctl enable` / restart, and the `is-active` answer per unit right after
restart and after the two-second grace sleep (the installer only ever reads
the latter). -/
structure InstallEnv where
  earlyFailure : Option String
  enableRc : Nat
  restartRc : Nat
  statusAtRestart : String → String
  statusAfterGrace : String → String
  caddyFailure : Option String

/-- The `units_to_check` list: service instances of units with neither a socket nor a
timer template name (line 367–372). -/
def unitsToCheck (us : List DeployedUnit) : List String :=
  (us.filter (fun u =>
    !(pyTruthy u.template_socket_name || pyTruthy u.template_timer_name))).flatMap
    (fun u => u.service_instances)

/-- The `active_units` list: every service instance plus truthy socket / timer
template names (lines 342–348). -/
def activeUnits (us : List DeployedUnit) : List String :=
  us.flatMap fun u =>
    u.service_instances ++ truthyList u.template_socket_name ++
      truthyList u.template_timer_name

/-- The `failed_units` list: polled units whose post-grace `is-active` output is not
`"active"` (lines 373–380). -/
def failedUnits (env : InstallEnv) (us : List DeployedUnit) : List String :=
  (unitsToCheck us).filter (fun u => !(env.statusAfterGrace u == "active"))

/-- Enable/restart/health block: daemon-reload and enable (checked), restart
(unchecked), grace sleep, poll, then either diagnostics plus the distinct
service-start-failure exit or normal continuation. -/
def restartPhase (env : InstallEnv) (us : List DeployedUnit) (fullRestart : Bool)
    (st : SystemdState) : InstallOutcome × List UnitAction :=
  let acts0 := [UnitAction.daemonReload, UnitAction.enable (activeUnits us)]
  if env.enableRc ≠ 0 then (.raised "CalledProcessError", acts0)
  else
    let verb := if fullRestart then "restart" else "reload-or-restart"
    let acts1 := acts0 ++ [UnitAction.restartCmd verb (activeUnits us),
      UnitAction.sleepGrace] ++ (unitsToCheck us).map UnitAction.pollActive
    let failed := failedUnits env us
    if env.restartRc ≠ 0 ∨ failed ≠ [] then
      let diag := failed.flatMap fun u =>
        (if u ∈ st.systemFiles then [UnitAction.verifyUnit u] else []) ++
          [UnitAction.journalTail u 30]
      (.serviceStartFailed, acts1 ++ diag)
    else (.ok, acts1)

/-- The `install` routine from the unit-sync phase on: phases 1–2 abstracted
as a possible exception, then UnitSync, then the restart/health block, then
the Caddy phase (whose handled reload failures never raise). -/
def installRun (env : InstallEnv) (app : String) (us : List DeployedUnit)
    (fullRestart : Bool) (st : SystemdState) (webserverEnabled : Bool) :
    InstallOutcome × List UnitAction :=
  match env.earlyFailure with
  | some m => (.raised m, [])
  | none =>
    match unitSync app us st with
    | .error m => (.raised m, [])
    | .ok (st1, syncActs) =>
      match restartPhase env us fullRestart st1 with
      | (.ok, acts2) =>
        if webserverEnabled then
          match env.caddyFailure with
          | some m => (.raised m, syncActs ++ acts2)
          | none => (.ok, syncActs ++ acts2)
        else (.ok, syncActs ++ acts2)
      | (out, acts2) => (out, syncActs ++ acts2)

/-- The exit status of `main`: `argparse` exits with 2 on invalid arguments;
`SystemExit(3)` from the health check passes through the `except Exception`
handler; any other exception exits 1; success exits 0. -/
def mainExitCode (argvOk : Bool) (out : InstallOutcome) : Nat :=
  if argvOk then
    match out with
    | .ok => 0
    | .serviceStartFailed => 3
    | .raised _ => 1
  else 2

theorem restartPhase_fst (env : InstallEnv) (us : List DeployedUnit)
    (fullRestart : Bool) (st : SystemdState) :
    (restartPhase env us fullRestart st).1 =
      if env.enableRc ≠ 0 then .raised "CalledProcessError"
      else if env.restartRc ≠ 0 ∨ failedUnits env us ≠ [] then .serviceStartFailed
      else .ok := by
  by_cases hen : env.enableRc ≠ 0
  · simp [restartPhase, hen]
  · by_cases hcond : env.restartRc ≠ 0 ∨ failedUnits env us ≠ []
    · simp [restartPhase, hen, hcond]
    · simp [restartPhase, hen, hcond]

theorem installRun_fst (env : InstallEnv) (app : String) (us : List DeployedUnit)
    (fullRestart : Bool) (st : SystemdState) (web : Bool) :
    (installRun env app us fullRestart st web).1 =
      match env.earlyFailure with
      | some m => .raised m
      | none =>
        match unitSync app us st with
        | .error m => .raised m
        | .ok _ =>
          if env.enableRc ≠ 0 then .raised "CalledProcessError"
          else if env.restartRc ≠ 0 ∨ failedUnits env us ≠ [] then
            .serviceStartFailed
          else if web then
            (match env.caddyFailure with
             | some m => .raised m
             | none => InstallOutcome.ok)
          else .ok := by
  cases henv : env.earlyFailure with
  | some m => simp [installRun, henv]
  | none =>
    cases hsync : unitSync app us st with
    | error m => simp [installRun, henv, hsync]
    | ok p =>
      obtain ⟨st1, sacts⟩ := p
      rcases hrp : restartPhase env us fullRestart st1 with ⟨out, acts2⟩
      have hout : out = (restartPhase env us fullRestart st1).1 := by rw [hrp]
      rw [restartPhase_fst] at hout
      by_cases hen : env.enableRc ≠ 0
      · rw [if_pos hen] at hout
        subst hout
        simp [installRun, henv, hsync, hrp, hen]
      · rw [if_neg hen] at hout
        by_cases hcond : env.restartRc ≠ 0 ∨ failedUnits env us ≠ []
        · rw [if_pos hcond] at hout
          subst hout
          simp [installRun, henv, hsync, hrp, hen, hcond]
        · rw [if_neg hcond] at hout
          subst hout
          cases web with
          | true =>
            cases hc : env.caddyFailure with
            | some m => simp [installRun, henv, hsync, hrp, hen, hcond, hc]
            | none => simp [installRun, henv, hsync, hrp, hen, hcond, hc]
          | false => simp [installRun, henv, hsync, hrp, hen, hcond]

/-- C2 (amended).  The remote installer exits only with 0, 1, 2 or 3; exit 3
occurs exactly on the install path where UnitSync and enable succeeded and
then the restart command returned non-zero *or* some polled immediately
runnable unit did not report active after the grace period — not exclusively
the latter; every other failure exits with a different code (2 is the
argument-parse failure, 1 any raised exception). -/
theorem installer_exit_codes (argvOk : Bool) (env : InstallEnv) (app : String)
    (us : List DeployedUnit) (fullRestart : Bool) (st : SystemdState)
    (web : Bool) :
    (mainExitCode argvOk (installRun env app us fullRestart st web).1 = 0 ∨
     mainExitCode argvOk (installRun env app us fullRestart st web).1 = 1 ∨
     mainExitCode argvOk (installRun env app us fullRestart st web).1 = 2 ∨
     mainExitCode argvOk (installRun env app us fullRestart st web).1 = 3) ∧
    (mainExitCode argvOk (installRun env app us fullRestart st web).1 = 3 ↔
      argvOk = true ∧
      (installRun env app us fullRestart st web).1 = .serviceStartFailed) ∧
    ((installRun env app us fullRestart st web).1 = .serviceStartFailed ↔
      env.earlyFailure = none ∧
      (∃ p, unitSync app us st = .ok p) ∧
      env.enableRc = 0 ∧
      (env.restartRc ≠ 0 ∨ failedUnits env us ≠ [])) := by
  refine ⟨?_, ?_, ?_⟩
  · cases argvOk with
    | false => simp [mainExitCode]
    | true =>
      cases (installRun env app us fullRestart st web).1 <;> simp [mainExitCode]
  · cases argvOk with
    | false => simp [mainExitCode]
    | true =>
      cases hout : (installRun env app us fullRestart st web).1 <;>
        simp [mainExitCode]
  · rw [installRun_fst]
    cases henv : env.earlyFailure with
    | some m => simp
    | none =>
      cases hsync : unitSync app us st with
      | error m => simp [hsync]
      | ok p =>
        by_cases hen : env.enableRc ≠ 0
        · simp [hen, hsync]
        · by_cases hcond : env.restartRc ≠ 0 ∨ failedUnits env us ≠ []
          · simp [hen, hcond, hsync]
            omega
          · simp only [if_neg hen, if_neg hcond]
            cases web with
            | true =>
              cases hc : env.caddyFailure with
              | some m => simp [hsync, hcond]
              | none => simp [hsync, hcond]
            | false => simp [hsync, hcond]

/-- C2 counterexample: with one socket-activated unit (empty poll set) and a
failing restart command, the installer exits 3 although no polled unit missed
its health check — exit 3 is not exclusive to the poll-failure path. -/
theorem installer_exit3_counterexample :
    mainExitCode true (installRun
      ⟨none, 0, 1, fun _ => "active", fun _ => "active", none⟩
      "bookstore"
      [⟨"web", "web.service", some "web.socket", none, 1, false,
        ["bookstore-web.service"], "bookstore-web.service",
        some "bookstore-web.socket", none⟩]
      false ⟨[], []⟩ true).1 = 3 ∧
    failedUnits ⟨none, 0, 1, fun _ => "active", fun _ => "active", none⟩
      [⟨"web", "web.service", some "web.socket", none, 1, false,
        ["bookstore-web.service"], "bookstore-web.service",
        some "bookstore-web.socket", none⟩] = [] := by
  decide

/-- C4.  After the grace sleep the installer polls exactly the service
instances of units with neither socket nor timer; a polled unit whose
post-grace activation state is not `"active"` — even one that reported
active immediately after restart — is detected, gets a unit-file
verification dump (when its unit file exists) and a 30-line log tail, and
the installer terminates with the distinct service-start-failure code 3. -/
theorem health_verify_detects (env : InstallEnv) (app : String)
    (us : List DeployedUnit) (fullRestart : Bool) (st st1 : SystemdState)
    (sacts : List UnitAction) (web : Bool) (u : String)
    (hearly : env.earlyFailure = none)
    (hsync : unitSync app us st = .ok (st1, sacts))
    (henable : env.enableRc = 0)
    (hu : u ∈ unitsToCheck us)
    (hat : env.statusAtRestart u = "active")
    (hgrace : env.statusAfterGrace u ≠ "active") :
    u ∈ failedUnits env us ∧
    (installRun env app us fullRestart st web).1 = .serviceStartFailed ∧
    mainExitCode true (installRun env app us fullRestart st web).1 = 3 ∧
    UnitAction.journalTail u 30 ∈ (installRun env app us fullRestart st web).2 ∧
    (u ∈ st1.systemFiles →
      UnitAction.verifyUnit u ∈ (installRun env app us fullRestart st web).2) ∧
    (∃ pre post, (installRun env app us fullRestart st web).2 =
      pre ++ [UnitAction.sleepGrace] ++
        (unitsToCheck us).map UnitAction.pollActive ++ post) := by
  have hfail : u ∈ failedUnits env us := by
    simp only [failedUnits, List.mem_filter, hu, true_and, Bool.not_eq_true',
      beq_eq_false_iff_ne, ne_eq]
    exact hgrace
  have hcond : env.restartRc ≠ 0 ∨ failedUnits env us ≠ [] := by
    refine Or.inr fun h => ?_
    rw [h] at hfail
    cases hfail
  have hen' : ¬env.enableRc ≠ 0 := by omega
  have hrp : restartPhase env us fullRestart st1 =
      (.serviceStartFailed,
       ([UnitAction.daemonReload, UnitAction.enable (activeUnits us)] ++
        [UnitAction.restartCmd (if fullRestart then "restart" else "reload-or-restart")
           (activeUnits us), UnitAction.sleepGrace] ++
        (unitsToCheck us).map UnitAction.pollActive) ++
       (failedUnits env us).flatMap (fun v =>
         (if v ∈ st1.systemFiles then [UnitAction.verifyUnit v] else []) ++
           [UnitAction.journalTail v 30])) := by
    simp [restartPhase, hen', hcond]
  have hir : installRun env app us fullRestart st web =
      (.serviceStartFailed, sacts ++
       (([UnitAction.daemonReload, UnitAction.enable (activeUnits us)] ++
         [UnitAction.restartCmd (if fullRestart then "restart" else "reload-or-restart")
            (activeUnits us), UnitAction.sleepGrace] ++
         (unitsToCheck us).map UnitAction.pollActive) ++
        (failedUnits env us).flatMap (fun v =>
          (if v ∈ st1.systemFiles then [UnitAction.verifyUnit v] else []) ++
            [UnitAction.journalTail v 30]))) := by
    simp [installRun, hearly, hsync, hrp]
  refine ⟨hfail, ?_, ?_, ?_, ?_, ?_⟩
  · rw [hir]
  · rw [hir]
    rfl
  · rw [hir]
    simp only [List.mem_append]
    refine Or.inr (Or.inr (List.mem_flatMap.mpr ⟨u, hfail, ?_⟩))
    simp
  · intro hmemfile
    rw [hir]
    simp only [List.mem_append]
    refine Or.inr (Or.inr (List.mem_flatMap.mpr ⟨u, hfail, ?_⟩))
    simp [hmemfile]
  · refine ⟨sacts ++ [UnitAction.daemonReload, UnitAction.enable (activeUnits us),
      UnitAction.restartCmd (if fullRestart then "restart" else "reload-or-restart")
        (activeUnits us)],
      (failedUnits env us).flatMap (fun v =>
        (if v ∈ st1.systemFiles then [UnitAction.verifyUnit v] else []) ++
          [UnitAction.journalTail v 30]), ?_⟩
    rw [hir]
    simp

/-- C4 witness: a `web` service with no socket or timer that is active right
after restart but failed after the grace window is detected and exits 3. -/
theorem health_verify_detects_witness :
    "bookstore-web.service" ∈ failedUnits
      ⟨none, 0, 0, fun _ => "active",
       fun v => if v = "bookstore-web.service" then "failed" else "active", none⟩
      [⟨"web", "web.service", none, none, 1, false, ["bookstore-web.service"],
        "bookstore-web.service", none, none⟩] ∧
    (installRun
      ⟨none, 0, 0, fun _ => "active",
       fun v => if v = "bookstore-web.service" then "failed" else "active", none⟩
      "bookstore"
      [⟨"web", "web.service", none, none, 1, false, ["bookstore-web.service"],
        "bookstore-web.service", none, none⟩]
      false ⟨[], []⟩ false).1 = .serviceStartFailed ∧
    mainExitCode true (installRun
      ⟨none, 0, 0, fun _ => "active",
       fun v => if v = "bookstore-web.service" then "failed" else "active", none⟩
      "bookstore"
      [⟨"web", "web.service", none, none, 1, false, ["bookstore-web.service"],
        "bookstore-web.service", none, none⟩]
      false ⟨[], []⟩ false).1 = 3 ∧
    UnitAction.journalTail "bookstore-web.service" 30 ∈ (installRun
      ⟨none, 0, 0, fun _ => "active",
       fun v => if v = "bookstore-web.service" then "failed" else "active", none⟩
      "bookstore"
      [⟨"web", "web.service", none, none, 1, false, ["bookstore-web.service"],
        "bookstore-web.service", none, none⟩]
      false ⟨[], []⟩ false).2 := by
  have h := health_verify_detects
    ⟨none, 0, 0, fun _ => "active",
     fun v => if v = "bookstore-web.service" then "failed" else "active", none⟩
    "bookstore"
    [⟨"web", "web.service", none, none, 1, false, ["bookstore-web.service"],
      "bookstore-web.service", none, none⟩]
    false ⟨[], []⟩
    ⟨["bookstore-web.service"], []⟩
    [UnitAction.writeFile "bookstore-web.service"] false "bookstore-web.service"
    rfl (by decide) rfl (by decide) rfl (by decide)
  exact ⟨h.1, h.2.1, h.2.2.1, h.2.2.2.1⟩

/-!
## `BaseCommand._resolve_units` (src/fujin/commands/_base.py)
-/

/-- A service as seen by `_resolve_units` (the discovered-service view:
logical name, template flag, optional socket / timer definition paths). -/
structure DiscoveredService where
  name : String
  is_template : Bool
  socket_file : Option String
  timer_file : Option String
  deriving Repr, DecidableEq

/-- Python slice `name[:-k]`. -/
def pyDropRight (s : String) (k : Nat) : String :=
  String.mk (s.data.take (s.data.length - k))

/-- The socket entries of `_resolve_units` (lines 152–161): append the
app-qualified socket name — `@`-marked for a template service, never an
instance index — or raise when `.socket` was requested without one. -/
def socketPart (app : String) (svc : DiscoveredService)
    (suffix_type : Option String) : Except String (List String) :=
  if suffix_type = some "socket" ∨ (suffix_type = none ∧ svc.socket_file.isSome) then
    if svc.socket_file.isNone ∧ suffix_type = some "socket" then
      .error ("Service '" ++ svc.name ++ "' does not have a socket.")
    else if svc.socket_file.isSome then
      .ok [app ++ "-" ++ svc.name ++ (if svc.is_template then "@" else "") ++ ".socket"]
    else .ok []
  else .ok []

/-- The timer entries of `_resolve_units` (lines 162–171). -/
def timerPart (app : String) (svc : DiscoveredService)
    (suffix_type : Option String) : Except String (List String) :=
  if suffix_type = some "timer" ∨ (suffix_type = none ∧ svc.timer_file.isSome) then
    if svc.timer_file.isNone ∧ suffix_type = some "timer" then
      .error ("Service '" ++ svc.name ++ "' does not have a timer.")
    else if svc.timer_file.isSome then
      .ok [app ++ "-" ++ svc.name ++ (if svc.is_template then "@" else "") ++ ".timer"]
    else .ok []
  else .ok []

/-- The service entries of `_resolve_units` (lines 140–150): the bare
template name, the replica-indexed instances, or the plain name. -/
def servicePart (app : String) (svc : DiscoveredService) (replicas : Nat)
    (suffix_type : Option String) (use_templates : Bool) : List String :=
  if suffix_type = some "service" ∨ suffix_type = none then
    if use_templates && svc.is_template then
      [app ++ "-" ++ svc.name ++ "@.service"]
    else if svc.is_template then
      (List.range replicas).map
        (fun i => app ++ "-" ++ svc.name ++ "@" ++ toString (i + 1) ++ ".service")
    else [app ++ "-" ++ svc.name ++ ".service"]
  else []

/-- The suffix parsing of `_resolve_units` (lines 105–117): strip a
`.service` / `.timer` / `.socket` suffix and remember which one. -/
def parseSuffix (nm : String) : String × Option String :=
  if pyEndsWith nm ".service" then (pyDropRight nm 8, some "service")
  else if pyEndsWith nm ".timer" then (pyDropRight nm 6, some "timer")
  else if pyEndsWith nm ".socket" then (pyDropRight nm 7, some "socket")
  else (nm, none)

/-- Embeds `BaseCommand._resolve_units` (lines 80–172): suffix parsing, the `timer` /
`socket` keywords, service lookup, and the three unit-name groups. -/
def resolve_units (app : String) (systemd_units : List String)
    (discovered : List DiscoveredService) (replicas_map : List (String × Nat))
    (name : Option String) (use_templates : Bool) : Except String (List String) :=
  match name with
  | none => .ok systemd_units
  | some nm =>
    let service_name := (parseSuffix nm).1
    let suffix_type := (parseSuffix nm).2
    if service_name = "timer" then
      .ok (systemd_units.filter (fun n => pyEndsWith n ".timer"))
    else if service_name = "socket" then
      .ok (systemd_units.filter (fun n => pyEndsWith n ".socket"))
    else
      match discovered.find? (fun s => s.name == service_name) with
      | none => .error ("Unknown service '" ++ service_name ++ "'.")
      | some svc =>
        let replicas := (replicas_map.lookup svc.name).getD 1
        match socketPart app svc suffix_type with
        | .error e => .error e
        | .ok socks =>
          match timerPart app svc suffix_type with
          | .error e => .error e
          | .ok tims =>
            .ok (servicePart app svc replicas suffix_type use_templates ++
              socks ++ tims)

theorem suffix_eq_of_length (l s1 s2 : List Char) (h1 : s1 <:+ l)
    (h2 : s2 <:+ l) (hl : s1.length = s2.length) : s1 = s2 := by
  obtain ⟨t1, rfl⟩ := h1
  obtain ⟨t2, heq⟩ := h2
  have hlen : t2.length = t1.length := by
    have := congrArg List.length heq
    simp at this
    omega
  exact ((List.append_inj heq hlen).2).symm ▸ rfl

/-- A name built as `x ++ ".service"` never ends in `.socket` or `.timer`. -/
theorem service_name_not_socket_timer (x : String) :
    pyEndsWith (x ++ ".service") ".socket" = false ∧
    pyEndsWith (x ++ ".service") ".timer" = false := by
  constructor
  · rw [Bool.eq_false_iff]
    intro h
    have hsuf : ".socket".data <:+ (x ++ ".service").data :=
      List.isSuffixOf_iff_suffix.mp h
    have hserv : "service".data <:+ (x ++ ".service").data :=
      ⟨x.data ++ ['.'], by simp [String.data_append]⟩
    have := suffix_eq_of_length _ _ _ hsuf hserv (by decide)
    exact absurd this (by decide)
  · rw [Bool.eq_false_iff]
    intro h
    have hsuf : ".timer".data <:+ (x ++ ".service").data :=
      List.isSuffixOf_iff_suffix.mp h
    have hserv : "ervice".data <:+ (x ++ ".service").data :=
      ⟨x.data ++ ['.', 's'], by simp [String.data_append]⟩
    have := suffix_eq_of_length _ _ _ hsuf hserv (by decide)
    exact absurd this (by decide)

theorem string_data_eq_nil (s : String) : s.data = [] ↔ s = "" := by
  constructor
  · intro h
    cases s with
    | mk d =>
      have hd : d = [] := h
      subst hd
      decide
  · intro h
    subst h
    decide

/-- A name `pre ++ marker ++ suf` never equals the replica-indexed
`pre ++ "@" ++ ix ++ suf` for a non-empty index. -/
theorem no_replica_index (pre suf ix : String) (hix : ix ≠ "") :
    pre ++ "@" ++ suf ≠ pre ++ "@" ++ ix ++ suf ∧
    pre ++ suf ≠ pre ++ "@" ++ ix ++ suf := by
  have hixlen : 1 ≤ ix.data.length := by
    cases hd : ix.data with
    | nil => exact absurd ((string_data_eq_nil ix).mp hd) hix
    | cons a l => simp
  constructor
  · intro h
    have hlen := congrArg (fun s => s.data.length) h
    simp only [String.data_append, List.length_append] at hlen
    omega
  · intro h
    have hlen := congrArg (fun s => s.data.length) h
    simp only [String.data_append, List.length_append] at hlen
    omega

/-- Every service entry of `servicePart` ends in `.service` (as an append). -/
theorem servicePart_shape (app : String) (svc : DiscoveredService)
    (replicas : Nat) (suffix_type : Option String) (use_templates : Bool) :
    ∀ s ∈ servicePart app svc replicas suffix_type use_templates,
      ∃ x, s = x ++ ".service" := by
  intro s hs
  simp only [servicePart] at hs
  split at hs
  · split at hs
    · rcases List.mem_singleton.mp hs with rfl
      refine ⟨app ++ "-" ++ svc.name ++ "@", ?_⟩
      have hlit : ("@.service" : String) = "@" ++ ".service" := by decide
      rw [hlit, ← String.append_assoc]
    · split at hs
      · obtain ⟨i, _, rfl⟩ := List.mem_map.mp hs
        exact ⟨app ++ "-" ++ svc.name ++ "@" ++ toString (i + 1), rfl⟩
      · rcases List.mem_singleton.mp hs with rfl
        exact ⟨app ++ "-" ++ svc.name, rfl⟩
  · cases hs

/-- C5.  The derived socket and timer names are singleton artifacts: the
socket / timer entries produced by `_resolve_units` are at most one
app-qualified name with an `@` marker but never a replica index, they are
independent of the replica-count map, and the (spec-modelled) deployed-unit
socket / timer template names likewise never carry an index. -/
theorem socket_timer_no_replica_index (app : String) (svc : DiscoveredService)
    (suffix_type : Option String) (u : SpecUnit) (ix : String) (hix : ix ≠ "") :
    (∀ l, socketPart app svc suffix_type = .ok l →
      (l = [] ∨ l = [app ++ "-" ++ svc.name ++
        (if svc.is_template then "@" else "") ++ ".socket"]) ∧
      ∀ s ∈ l, s ≠ app ++ "-" ++ svc.name ++ "@" ++ ix ++ ".socket") ∧
    (∀ l, timerPart app svc suffix_type = .ok l →
      (l = [] ∨ l = [app ++ "-" ++ svc.name ++
        (if svc.is_template then "@" else "") ++ ".timer"]) ∧
      ∀ s ∈ l, s ≠ app ++ "-" ++ svc.name ++ "@" ++ ix ++ ".timer") ∧
    (∀ systemd_units discovered rmap1 rmap2 nm ut l1 l2,
      resolve_units app systemd_units discovered rmap1 nm ut = .ok l1 →
      resolve_units app systemd_units discovered rmap2 nm ut = .ok l2 →
      l1.filter (fun s => pyEndsWith s ".socket") =
        l2.filter (fun s => pyEndsWith s ".socket") ∧
      l1.filter (fun s => pyEndsWith s ".timer") =
        l2.filter (fun s => pyEndsWith s ".timer")) ∧
    (∀ s, u.templateSocketName = some s →
      s ≠ u.appName ++ "-" ++ u.name ++ "@" ++ ix ++ ".socket") ∧
    (∀ s, u.templateTimerName = some s →
      s ≠ u.appName ++ "-" ++ u.name ++ "@" ++ ix ++ ".timer") := by
  have hnoidx := fun (pre suf : String) => no_replica_index pre suf ix hix
  refine ⟨?_, ?_, ?_, ?_, ?_⟩
  · intro l hl
    have hshape : l = [] ∨ l = [app ++ "-" ++ svc.name ++
        (if svc.is_template then "@" else "") ++ ".socket"] := by
      simp only [socketPart] at hl
      split at hl
      · split at hl
        · cases hl
        · split at hl
          · cases hl; right; rfl
          · cases hl; left; rfl
      · cases hl; left; rfl
    refine ⟨hshape, ?_⟩
    intro s hs
    rcases hshape with rfl | rfl
    · cases hs
    · rcases List.mem_singleton.mp hs with rfl
      cases hmt : svc.is_template with
      | true => simpa [hmt] using (hnoidx (app ++ "-" ++ svc.name) ".socket").1
      | false => simpa [hmt] using (hnoidx (app ++ "-" ++ svc.name) ".socket").2
  · intro l hl
    have hshape : l = [] ∨ l = [app ++ "-" ++ svc.name ++
        (if svc.is_template then "@" else "") ++ ".timer"] := by
      simp only [timerPart] at hl
      split at hl
      · split at hl
        · cases hl
        · split at hl
          · cases hl; right; rfl
          · cases hl; left; rfl
      · cases hl; left; rfl
    refine ⟨hshape, ?_⟩
    intro s hs
    rcases hshape with rfl | rfl
    · cases hs
    · rcases List.mem_singleton.mp hs with rfl
      cases hmt : svc.is_template with
      | true => simpa [hmt] using (hnoidx (app ++ "-" ++ svc.name) ".timer").1
      | false => simpa [hmt] using (hnoidx (app ++ "-" ++ svc.name) ".timer").2
  · intro systemd_units discovered rmap1 rmap2 nm ut l1 l2 h1 h2
    cases nm with
    | none =>
      simp only [resolve_units] at h1 h2
      cases h1; cases h2
      exact ⟨rfl, rfl⟩
    | some nstr =>
      simp only [resolve_units] at h1 h2
      by_cases ht : (parseSuffix nstr).1 = "timer"
      · rw [if_pos ht] at h1 h2
        cases h1; cases h2; exact ⟨rfl, rfl⟩
      · rw [if_neg ht] at h1 h2
        by_cases hso : (parseSuffix nstr).1 = "socket"
        · rw [if_pos hso] at h1 h2
          cases h1; cases h2; exact ⟨rfl, rfl⟩
        · rw [if_neg hso] at h1 h2
          cases hfind : discovered.find? (fun s => s.name == (parseSuffix nstr).1) with
          | none =>
            simp only [hfind] at h1
            simp at h1
          | some svc' =>
            simp only [hfind] at h1 h2
            cases hsp : socketPart app svc' (parseSuffix nstr).2 with
            | error e =>
              simp only [hsp] at h1
              simp at h1
            | ok socks =>
              simp only [hsp] at h1 h2
              cases htp : timerPart app svc' (parseSuffix nstr).2 with
              | error e =>
                simp only [htp] at h1
                simp at h1
              | ok tims =>
                simp only [htp] at h1 h2
                cases h1; cases h2
                have hservice1 := servicePart_shape app svc'
                  ((List.lookup svc'.name rmap1).getD 1) (parseSuffix nstr).2 ut
                have hservice2 := servicePart_shape app svc'
                  ((List.lookup svc'.name rmap2).getD 1) (parseSuffix nstr).2 ut
                have hnil1s : (servicePart app svc'
                    ((List.lookup svc'.name rmap1).getD 1) (parseSuffix nstr).2 ut).filter
                    (fun s => pyEndsWith s ".socket") = [] := by
                  rw [List.filter_eq_nil_iff]
                  intro a ha
                  obtain ⟨x, rfl⟩ := hservice1 a ha
                  simp [(service_name_not_socket_timer x).1]
                have hnil2s : (servicePart app svc'
                    ((List.lookup svc'.name rmap2).getD 1) (parseSuffix nstr).2 ut).filter
                    (fun s => pyEndsWith s ".socket") = [] := by
                  rw [List.filter_eq_nil_iff]
                  intro a ha
                  obtain ⟨x, rfl⟩ := hservice2 a ha
                  simp [(service_name_not_socket_timer x).1]
                have hnil1t : (servicePart app svc'
                    ((List.lookup svc'.name rmap1).getD 1) (parseSuffix nstr).2 ut).filter
                    (fun s => pyEndsWith s ".timer") = [] := by
                  rw [List.filter_eq_nil_iff]
                  intro a ha
                  obtain ⟨x, rfl⟩ := hservice1 a ha
                  simp [(service_name_not_socket_timer x).2]
                have hnil2t : (servicePart app svc'
                    ((List.lookup svc'.name rmap2).getD 1) (parseSuffix nstr).2 ut).filter
                    (fun s => pyEndsWith s ".timer") = [] := by
                  rw [List.filter_eq_nil_iff]
                  intro a ha
                  obtain ⟨x, rfl⟩ := hservice2 a ha
                  simp [(service_name_not_socket_timer x).2]
                constructor
                · simp [List.filter_append, hnil1s, hnil2s]
                · simp [List.filter_append, hnil1t, hnil2t]
  · intro s hsome
    simp only [SpecUnit.templateSocketName] at hsome
    split at hsome
    · cases hsome
      cases hmt : u.isTemplate with
      | true => simpa [hmt] using (hnoidx (u.appName ++ "-" ++ u.name) ".socket").1
      | false => simpa [hmt] using (hnoidx (u.appName ++ "-" ++ u.name) ".socket").2
    · cases hsome
  · intro s hsome
    simp only [SpecUnit.templateTimerName] at hsome
    split at hsome
    · cases hsome
      cases hmt : u.isTemplate with
      | true => simpa [hmt] using (hnoidx (u.appName ++ "-" ++ u.name) ".timer").1
      | false => simpa [hmt] using (hnoidx (u.appName ++ "-" ++ u.name) ".timer").2
    · cases hsome

/-- C5 witness: a templated `web` service with a socket — the derived socket
name is the `@`-marked singleton and differs from every indexed variant. -/
theorem socket_timer_no_replica_index_witness :
    socketPart "bookstore" ⟨"web", true, some "web@.socket", none⟩ none =
      .ok ["bookstore-web@.socket"] ∧
    "bookstore-web@.socket" ≠
      "bookstore" ++ "-" ++ "web" ++ "@" ++ "1" ++ ".socket" ∧
    "bookstore-web@.socket" ≠ "bookstore-web@1.socket" := by
  have h := socket_timer_no_replica_index "bookstore"
    ⟨"web", true, some "web@.socket", none⟩ none
    (SpecUnit.mk "bookstore" "web" true false 3) "1" (by decide)
  have hsp : socketPart "bookstore" ⟨"web", true, some "web@.socket", none⟩ none =
      .ok ["bookstore-web@.socket"] := by decide
  have hne := (h.1 _ hsp).2 "bookstore-web@.socket" (List.mem_singleton.mpr rfl)
  exact ⟨hsp, hne, fun heq => hne (heq.trans (by decide))⟩

/-!
## Checksum-verified upload with bounded retries

`deploy.py` calls `conn.put(str(zipapp_path), remote_bundle_path_q,
verify=True)`, but the `SSH2Connection.put` present in
src/fujin/connection.py takes no `verify` parameter and performs no digest
check: the verifying upload path of this repository is not under src/.
-/

/-- One step of the verified upload, as recorded. -/
inductive UploadAction where
  | uploadTemp
  | checkDigest
  | removeTemp
  | renameIntoPlace
  | promptRetry
  deriving Repr, DecidableEq

/-- Modelled from the spec: the retry loop of the verifying upload
(`SSH2Connection.put` with `verify=True`, absent from src/).  Attempt `k`
uploads to the temporary remote name and recomputes the remote digest; on a
match it atomically renames into place; on a mismatch it removes the
temporary file and — unless `no_input` is set, which aborts after the single
failed attempt without prompting — asks the operator and retries while
attempts remain, failing with `UploadError` after the final attempt. -/
def uploadGo (localDigest : String) (remoteDigest : Nat → String)
    (noInput : Bool) (confirmRetry : Nat → Bool) :
    Nat → Nat → List UploadAction × Except String Unit
  | _, 0 => ([], .error "UploadError")
  | k, fuel + 1 =>
    if remoteDigest k = localDigest then
      ([.uploadTemp, .checkDigest, .renameIntoPlace], .ok ())
    else if noInput then
      ([.uploadTemp, .checkDigest, .removeTemp], .error "UploadError")
    else if fuel = 0 then
      ([.uploadTemp, .checkDigest, .removeTemp], .error "UploadError")
    else if confirmRetry k then
      let r := uploadGo localDigest remoteDigest noInput confirmRetry (k + 1) fuel
      ([.uploadTemp, .checkDigest, .removeTemp, .promptRetry] ++ r.1, r.2)
    else
      ([.uploadTemp, .checkDigest, .removeTemp, .promptRetry], .error "UploadError")

/-- Modelled from the spec: the verified upload entry point, starting at
attempt 0 with the configured maximum attempt count. -/
def put_verify (localDigest : String) (remoteDigest : Nat → String)
    (maxAttempts : Nat) (noInput : Bool) (confirmRetry : Nat → Bool) :
    List UploadAction × Except String Unit :=
  uploadGo localDigest remoteDigest noInput confirmRetry 0 maxAttempts

theorem uploadGo_mismatch (ld : String) (rd : Nat → String) (noInput : Bool)
    (confirm : Nat → Bool) (hmiss : ∀ j, rd j ≠ ld) :
    ∀ fuel k,
      (uploadGo ld rd noInput confirm k fuel).2 = .error "UploadError" ∧
      (uploadGo ld rd noInput confirm k fuel).1.count .uploadTemp ≤ fuel ∧
      (uploadGo ld rd noInput confirm k fuel).1.count .removeTemp =
        (uploadGo ld rd noInput confirm k fuel).1.count .uploadTemp ∧
      (noInput = true → 1 ≤ fuel →
        (uploadGo ld rd noInput confirm k fuel).1.count .uploadTemp = 1 ∧
        UploadAction.promptRetry ∉ (uploadGo ld rd noInput confirm k fuel).1) ∧
      (noInput = false → (∀ j, confirm j = true) →
        (uploadGo ld rd noInput confirm k fuel).1.count .uploadTemp = fuel) := by
  intro fuel
  induction fuel with
  | zero =>
    intro k
    simp [uploadGo]
  | succ fuel ih =>
    intro k
    have hne := hmiss k
    cases noInput with
    | true =>
      have hstep : uploadGo ld rd true confirm k (fuel + 1) =
          ([.uploadTemp, .checkDigest, .removeTemp], .error "UploadError") := by
        simp [uploadGo, hne]
      rw [hstep]
      refine ⟨rfl, by simp, by simp, ?_, by simp⟩
      intro _ _
      simp
    | false =>
      by_cases hf0 : fuel = 0
      · subst hf0
        have hstep : uploadGo ld rd false confirm k (0 + 1) =
            ([.uploadTemp, .checkDigest, .removeTemp], .error "UploadError") := by
          simp [uploadGo, hne]
        rw [hstep]
        refine ⟨rfl, by simp, by simp, by simp, ?_⟩
        intro _ _
        simp
      · cases hc : confirm k with
        | true =>
          have hstep : uploadGo ld rd false confirm k (fuel + 1) =
              (UploadAction.uploadTemp :: UploadAction.checkDigest ::
                UploadAction.removeTemp :: UploadAction.promptRetry ::
                (uploadGo ld rd false confirm (k + 1) fuel).1,
               (uploadGo ld rd false confirm (k + 1) fuel).2) := by
            simp [uploadGo, hne, hf0, hc]
          obtain ⟨ih1, ih2, ih3, _, ih5⟩ := ih (k + 1)
          rw [hstep]
          refine ⟨ih1, ?_, ?_, by simp, ?_⟩
          · simp only [List.count_cons]
            simp
            omega
          · simp only [List.count_cons]
            simp [ih3]
          · intro _ hall
            simp only [List.count_cons]
            simp [ih5 rfl hall]
        | false =>
          have hstep : uploadGo ld rd false confirm k (fuel + 1) =
              ([.uploadTemp, .checkDigest, .removeTemp, .promptRetry],
               .error "UploadError") := by
            simp [uploadGo, hne, hf0, hc]
          rw [hstep]
          refine ⟨rfl, by simp [List.count_cons], by simp, by simp, ?_⟩
          intro _ hall
          rw [hall k] at hc
          cases hc

theorem uploadGo_rename_needs_match (ld : String) (rd : Nat → String)
    (noInput : Bool) (confirm : Nat → Bool) :
    ∀ fuel k, UploadAction.renameIntoPlace ∈ (uploadGo ld rd noInput confirm k fuel).1 →
      ∃ j, rd j = ld := by
  intro fuel
  induction fuel with
  | zero =>
    intro k h
    simp [uploadGo] at h
  | succ fuel ih =>
    intro k h
    by_cases hk : rd k = ld
    · exact ⟨k, hk⟩
    · cases noInput with
      | true =>
        have hstep : uploadGo ld rd true confirm k (fuel + 1) =
            ([.uploadTemp, .checkDigest, .removeTemp], .error "UploadError") := by
          simp [uploadGo, hk]
        rw [hstep] at h
        simp at h
      | false =>
        by_cases hf0 : fuel = 0
        · subst hf0
          have hstep : uploadGo ld rd false confirm k (0 + 1) =
              ([.uploadTemp, .checkDigest, .removeTemp], .error "UploadError") := by
            simp [uploadGo, hk]
          rw [hstep] at h
          simp at h
        · cases hc : confirm k with
          | true =>
            have hstep : uploadGo ld rd false confirm k (fuel + 1) =
                (UploadAction.uploadTemp :: UploadAction.checkDigest ::
                  UploadAction.removeTemp :: UploadAction.promptRetry ::
                  (uploadGo ld rd false confirm (k + 1) fuel).1,
                 (uploadGo ld rd false confirm (k + 1) fuel).2) := by
              simp [uploadGo, hk, hf0, hc]
            rw [hstep] at h
            simp only [List.mem_cons] at h
            rcases h with h | h | h | h | h
            · cases h
            · cases h
            · cases h
            · cases h
            · exact ih (k + 1) h
          | false =>
            have hstep : uploadGo ld rd false confirm k (fuel + 1) =
                ([.uploadTemp, .checkDigest, .removeTemp, .promptRetry],
                 .error "UploadError") := by
              simp [uploadGo, hk, hf0, hc]
            rw [hstep] at h
            simp at h

/-- C6.  The verified upload goes to a temporary name first and renames into
place only after the recomputed remote digest matched; every mismatched
attempt removes the temporary file; with `no_input` a single failed attempt
aborts immediately without prompting; and when every attempt mismatches the
loop performs at most (and, when each retry is confirmed, exactly) the
configured number of attempts and fails with `UploadError`. -/
theorem put_verify_spec (ld : String) (rd : Nat → String) (maxA : Nat)
    (noInput : Bool) (confirm : Nat → Bool) (hmax : 1 ≤ maxA) :
    (rd 0 = ld → put_verify ld rd maxA noInput confirm =
      ([.uploadTemp, .checkDigest, .renameIntoPlace], .ok ())) ∧
    (UploadAction.renameIntoPlace ∈ (put_verify ld rd maxA noInput confirm).1 →
      ∃ j, rd j = ld) ∧
    ((∀ j, rd j ≠ ld) →
      (put_verify ld rd maxA noInput confirm).2 = .error "UploadError" ∧
      (put_verify ld rd maxA noInput confirm).1.count .uploadTemp ≤ maxA ∧
      (put_verify ld rd maxA noInput confirm).1.count .removeTemp =
        (put_verify ld rd maxA noInput confirm).1.count .uploadTemp ∧
      (noInput = true →
        (put_verify ld rd maxA noInput confirm).1.count .uploadTemp = 1 ∧
        UploadAction.promptRetry ∉ (put_verify ld rd maxA noInput confirm).1) ∧
      (noInput = false → (∀ j, confirm j = true) →
        (put_verify ld rd maxA noInput confirm).1.count .uploadTemp = maxA)) := by
  refine ⟨?_, ?_, ?_⟩
  · intro h0
    obtain ⟨m, rfl⟩ : ∃ m, maxA = m + 1 := ⟨maxA - 1, by omega⟩
    simp [put_verify, uploadGo, h0]
  · exact uploadGo_rename_needs_match ld rd noInput confirm maxA 0
  · intro hmiss
    obtain ⟨h1, h2, h3, h4, h5⟩ := uploadGo_mismatch ld rd noInput confirm hmiss maxA 0
    exact ⟨h1, h2, h3, fun hni => h4 hni hmax, h5⟩

/-- C6 witness: the spec scenario — local digest `abc123`, remote digest
`def456`, `no_input` set, three allowed attempts: exactly one upload, the
temp file removed, no prompt, immediate `UploadError`. -/
theorem put_verify_spec_witness :
    put_verify "abc123" (fun _ => "def456") 3 true (fun _ => true) =
      ([.uploadTemp, .checkDigest, .removeTemp], .error "UploadError") ∧
    (put_verify "abc123" (fun _ => "def456") 3 true
      (fun _ => true)).1.count .uploadTemp = 1 ∧
    UploadAction.promptRetry ∉
      (put_verify "abc123" (fun _ => "def456") 3 true (fun _ => true)).1 ∧
    put_verify "abc123" (fun k => if k = 0 then "def456" else "abc123") 3 false
      (fun _ => true) =
      ([.uploadTemp, .checkDigest, .removeTemp, .promptRetry,
        .uploadTemp, .checkDigest, .renameIntoPlace], .ok ()) := by
  have h := put_verify_spec "abc123" (fun _ => "def456") 3 true
    (fun _ => true) (by decide)
  have hm := (h.2.2 (fun j => by
    show ("def456" : String) ≠ "abc123"
    decide)).2.2.2.1 rfl
  exact ⟨by decide, hm.1, hm.2, by decide⟩

/-!
## Deployment coordinator: rollback and pruning (src/fujin/commands/deploy.py)

The post-install control flow of `Deploy.__call__` (lines 355–419): interpret
the remote exit code, optionally roll back on code 3, always delete the
failed bundle on that path, and prune old versions only when
`versions_to_keep` is truthy and no rollback ran.
-/

/-- One observable step of the deployment coordinator after the build/upload. -/
inductive DeployAction where
  | execInstaller
  | promptRollback
  | runRollback
  | removeFailedBundle
  | prune (keep : Nat)
  | logOp
  deriving Repr, DecidableEq

/-- Tail of `Deploy.__call__` after the rollback handling: prune when
`versions_to_keep` is truthy and no rollback ran, then log the operation and
report `(rollback_ran, rollback_succeeded)`. -/
def finishDeploy (acts : List DeployAction) (ran succ : Bool) (keep : Nat) :
    List DeployAction × Except String (Bool × Bool) :=
  (acts ++ (if keep ≠ 0 ∧ ran = false then [DeployAction.prune keep] else []) ++
    [DeployAction.logOp], .ok (ran, succ))

/-- Embeds `Deploy.__call__` lines 355–419: `installExit` is the remote installer's
exit code; `confirm` is the operator's answer to the rollback prompt
(`none` models a keyboard interrupt during the prompt, which the code
catches); `rollbackResult` is `rollback()`'s return value (success is `1`). -/
def deployFinalize (installExit : Nat) (noRollback noInput : Bool)
    (confirm : Option Bool) (rollbackResult : Nat) (keep : Nat) :
    List DeployAction × Except String (Bool × Bool) :=
  if installExit = 0 then
    finishDeploy [DeployAction.execInstaller] false false keep
  else if installExit ≠ 3 then
    ([DeployAction.execInstaller], .error "DeploymentError")
  else if noRollback then
    ([DeployAction.execInstaller], .error "DeploymentError")
  else if noInput then
    finishDeploy [DeployAction.execInstaller, DeployAction.runRollback,
      DeployAction.removeFailedBundle] true (rollbackResult = 1) keep
  else
    match confirm with
    | some true =>
      finishDeploy [DeployAction.execInstaller, DeployAction.promptRollback,
        DeployAction.runRollback, DeployAction.removeFailedBundle] true
        (rollbackResult = 1) keep
    | some false =>
      ([DeployAction.execInstaller, DeployAction.promptRollback,
        DeployAction.removeFailedBundle], .error "DeploymentError")
    | none =>
      finishDeploy [DeployAction.execInstaller, DeployAction.promptRollback,
        DeployAction.removeFailedBundle] false false keep

/-- Effect of the prune command `ls -1t | tail -n +(keep+1) | xargs -r rm` on
the newest-first file listing: the newest `keep` entries are kept, everything
older is removed. -/
def pruneEffect (filesNewestFirst : List String) (keep : Nat) :
    List String × List String :=
  (filesNewestFirst.take keep, filesNewestFirst.drop keep)

/-- C7 (amended).  When the remote install succeeds and `versions_to_keep` is
truthy, old bundles are pruned — the prune keeps the newest `keep` bundles
and removes exactly the older ones; but whenever an automatic rollback ran,
even a successful one, pruning is skipped for that deployment. -/
theorem deploy_prune_policy (installExit : Nat) (noRollback noInput : Bool)
    (confirm : Option Bool) (rollbackResult : Nat) (keep : Nat)
    (files : List String) (hkeep : keep ≠ 0) :
    (installExit = 0 →
      DeployAction.prune keep ∈
        (deployFinalize installExit noRollback noInput confirm
          rollbackResult keep).1 ∧
      (deployFinalize installExit noRollback noInput confirm
        rollbackResult keep).2 = .ok (false, false)) ∧
    (∀ ran succ,
      (deployFinalize installExit noRollback noInput confirm
        rollbackResult keep).2 = .ok (ran, succ) → ran = true →
      ∀ j, DeployAction.prune j ∉
        (deployFinalize installExit noRollback noInput confirm
          rollbackResult keep).1) ∧
    ((pruneEffect files keep).1 = files.take keep ∧
     (pruneEffect files keep).2 = files.drop keep ∧
     (pruneEffect files keep).1 ++ (pruneEffect files keep).2 = files ∧
     (pruneEffect files keep).1.length ≤ keep) := by
  refine ⟨?_, ?_, rfl, rfl, by simp [pruneEffect], by simp [pruneEffect]⟩
  · intro h0
    subst h0
    simp [deployFinalize, finishDeploy, hkeep]
  · intro ran succ hres hran j
    subst hran
    by_cases h0 : installExit = 0
    · subst h0
      simp [deployFinalize, finishDeploy, hkeep] at hres
    · by_cases h3 : installExit ≠ 3
      · simp [deployFinalize, h0, h3] at hres
      · by_cases hnr : noRollback
        · simp [deployFinalize, h0, h3, hnr] at hres
        · by_cases hni : noInput
          · simp [deployFinalize, finishDeploy, h0, h3, hnr, hni]
          · cases hc : confirm with
            | some b =>
              cases b with
              | true =>
                simp [deployFinalize, finishDeploy, h0, h3, hnr, hni, hc]
              | false =>
                simp [deployFinalize, finishDeploy, h0, h3, hnr, hni, hc] at hres
            | none =>
              simp [deployFinalize, finishDeploy, h0, h3, hnr, hni, hc] at hres

/-- C7 counterexample: remote install exits 3, `no_input` triggers an
automatic rollback which succeeds (`rollback()` returned 1), retention is
configured — yet no prune action is recorded. -/
theorem deploy_prune_after_rollback_counterexample :
    deployFinalize 3 false true none 1 5 =
      ([DeployAction.execInstaller, DeployAction.runRollback,
        DeployAction.removeFailedBundle, DeployAction.logOp],
       .ok (true, true)) ∧
    DeployAction.prune 5 ∉ (deployFinalize 3 false true none 1 5).1 := by
  decide

/-- C7 witness: a successful install with retention 5 prunes; the prune on a
newest-first listing of seven bundles keeps the five newest and removes the
two oldest. -/
theorem deploy_prune_policy_witness :
    (DeployAction.prune 5 ∈ (deployFinalize 0 false false none 0 5).1 ∧
      (deployFinalize 0 false false none 0 5).2 = .ok (false, false)) ∧
    pruneEffect ["v7", "v6", "v5", "v4", "v3", "v2", "v1"] 5 =
      (["v7", "v6", "v5", "v4", "v3"], ["v2", "v1"]) := by
  have h := deploy_prune_policy 0 false false none 0 5
    ["v7", "v6", "v5", "v4", "v3", "v2", "v1"] (by decide)
  exact ⟨h.1 rfl, by decide⟩

/-!
## Service discovery (src/fujin/discovery.py)

`discover_services` as present in src/: it validates *every* `*.service`
file it globs — there is no reserved-prefix (underscore) skip — while the
repository's own tests (`tests/test_discovery.py`,
`test_discover_underscore_files_not_validated` among others) require
underscore-prefixed definition files to be skipped before parsing.
-/

/-- Whitespace for `str.strip` purposes. -/
def isPySpace (c : Char) : Bool :=
  c == ' ' || c == '\t' || c == '\r' || c == '\n' || c == '\x0b' || c == '\x0c'

/-- Embeds `str.strip()` via the character list. -/
def pyStrip (s : String) : String :=
  String.mk (((s.data.dropWhile isPySpace).reverse.dropWhile isPySpace).reverse)

/-- A configparser section-header line: `[` then a non-empty header then `]`. -/
def isSectionHeaderLine (stripped : String) : Bool :=
  match stripped.data with
  | '[' :: rest =>
    !(rest.takeWhile (fun c => !(c == ']'))).isEmpty &&
      !(rest.dropWhile (fun c => !(c == ']'))).isEmpty
  | _ => false

/-- One `configparser._read` step over the remaining lines, given whether a
section header has been seen: blank lines and comments pass, continuations
need a current section, a non-header line before any section raises
`MissingSectionHeaderError`, and an option line needs a `=` or `:`
delimiter. -/
def checkLines (seen : Bool) : List String → Except String Unit
  | [] => .ok ()
  | line :: rest =>
    let stripped := pyStrip line
    if stripped = "" then checkLines seen rest
    else if stripped.data.head? = some '#' ∨ stripped.data.head? = some ';' then
      checkLines seen rest
    else if (line.data.head?.map isPySpace).getD false then
      if seen then checkLines seen rest else .error "MissingSectionHeaderError"
    else if isSectionHeaderLine stripped then checkLines true rest
    else if !seen then .error "MissingSectionHeaderError"
    else if stripped.data.contains '=' || stripped.data.contains ':' then
      checkLines seen rest
    else .error "ParsingError"

/-- Embeds `_validate_unit_file`: parse the content with
`configparser.ConfigParser(strict=False, allow_no_value=True)`. -/
def validateUnitFile (content : String) : Except String Unit :=
  checkLines false ((content.data.splitOn '\n').map String.mk)

/-- Embeds `str.removesuffix`. -/
def pyRemoveSuffix (s suf : String) : String :=
  if pyEndsWith s suf then pyDropRight s suf.data.length else s

/-- Embeds `_parse_service_filename`: strip `.service`, then a trailing `@` marks a
template. -/
def parse_service_filename (filename : String) : String × Bool :=
  let name := pyRemoveSuffix filename ".service"
  let is_template := pyEndsWith name "@"
  (if is_template then pyRemoveSuffix name "@" else name, is_template)

/-- Discovered-service record mirroring `discovery.ServiceUnit`. -/
structure ServiceUnitModel where
  name : String
  is_template : Bool
  service_file : String
  socket_file : Option String
  timer_file : Option String
  deriving Repr, DecidableEq

/-- Validate-and-look-up the optional paired file of one service. -/
def pairedFile (files : List (String × String)) (pairName : String) :
    Except String (Option String) :=
  match files.find? (fun f => f.1 == pairName) with
  | some (fname, fcontent) =>
    match validateUnitFile fcontent with
    | .error e => .error ("Failed to parse " ++ fname ++ ": " ++ e)
    | .ok _ => .ok (some fname)
  | none => .ok none

/-- The per-service loop of `discover_services` (lines 54–94): validate the
service file, parse its name, then validate and attach socket / timer
files. -/
def discoverGo (files : List (String × String)) :
    List (String × String) → Except String (List ServiceUnitModel)
  | [] => .ok []
  | (fname, content) :: rest =>
    match validateUnitFile content with
    | .error e => .error ("Failed to parse " ++ fname ++ ": " ++ e)
    | .ok _ =>
      let p := parse_service_filename fname
      let socket_name := if p.2 then p.1 ++ "@.socket" else p.1 ++ ".socket"
      let timer_name := if p.2 then p.1 ++ "@.timer" else p.1 ++ ".timer"
      match pairedFile files socket_name with
      | .error e => .error e
      | .ok sock =>
        match pairedFile files timer_name with
        | .error e => .error e
        | .ok tim =>
          match discoverGo files rest with
          | .error e => .error e
          | .ok svcs => .ok (⟨p.1, p.2, fname, sock, tim⟩ :: svcs)

/-- Stable insertion into a name-sorted list (`sorted(..., key=s.name)`). -/
def insertByName (u : ServiceUnitModel) : List ServiceUnitModel →
    List ServiceUnitModel
  | [] => [u]
  | v :: rest =>
    if decide (u.name ≤ v.name) && !(u.name == v.name) then u :: v :: rest
    else v :: insertByName u rest

/-- Embeds `sorted(services, key=lambda s: s.name)` as a stable insertion sort. -/
def sortByName : List ServiceUnitModel → List ServiceUnitModel
  | [] => []
  | u :: rest => insertByName u (sortByName rest)

/-- Embeds `discover_services(fujin_dir)` over an abstract directory listing
`(filename, content)`: glob `*.service`, validate each (no reserved-prefix
skip), attach socket / timer files, and sort by name. -/
def discover_services (files : List (String × String)) :
    Except String (List ServiceUnitModel) :=
  match discoverGo files (files.filter (fun f => pyEndsWith f.1 ".service")) with
  | .error e => .error e
  | .ok svcs => .ok (sortByName svcs)

/-- A well-formed service definition, as in the repository's tests. -/
def webServiceContent : String :=
  "[Unit]\nDescription=Web server\n\n[Service]\nExecStart=/bin/true\n"

/-- The malformed scratch file of
`test_discover_underscore_files_not_validated`. -/
def brokenContent : String := "This is not valid INI\n[[[broken"

/-- C8 (code bug).  The `discover_services` present in src/ validates the
reserved-prefix file `_broken.service` and fails discovery on it, while the
repository's tests require underscore-prefixed files to be skipped before
validation; without the underscore file the same directory discovers
cleanly. -/
theorem discover_underscore_not_skipped :
    discover_services
      [("web.service", webServiceContent),
       ("_broken.service", brokenContent)] =
      .error "Failed to parse _broken.service: MissingSectionHeaderError" ∧
    discover_services [("web.service", webServiceContent)] =
      .ok [⟨"web", false, "web.service", none, none⟩] := by
  decide

end Fujin
